import Mathlib

/-!
Verification development for the SwiftCare ambulance-dispatch application.

The embedding models, faithfully to the sources:
* the `auto_dispatch_ambulance` trigger function
  (supabase/migrations/20260206014121, lines 10-38): filter of the ambulance
  pool to `status = 'available' AND driver_id IS NOT NULL`, ordering by
  `SQRT(POWER(COALESCE(current_lat, 9.0579) - location_lat, 2) +
        POWER(COALESCE(current_lng, 7.4951) - location_lng, 2))`
  and `LIMIT 1`, the assignment of the request and the `busy` update;
* the `generate_tracking_code` trigger
  (supabase/migrations/20260205172418, lines 135-146);
* the admin `assignAmbulance` operation (unnamed AdminDashboard file,
  `assignAmbulance`), together with the UI guards under which it is invoked
  (RequestsTab renders the assignment control only for `pending` requests and
  only offers ambulances filtered to `status === 'available'`);
* the driver `updateRequestStatus` operation (DriverDashboard), including the
  row-level-security semantics of the two `update` calls: the request update
  is filtered by the policy `assigned_driver_id = auth.uid()` and the
  ambulance update by `driver_id = auth.uid()`;
* the haversine `calculateDistance` helper exported by the map component,
  which is the repository's only great-circle distance implementation.

Coordinates are rational numbers (the SQL double precision columns hold
decimal literals; all the properties below are order/equality properties and
are insensitive to the float/real distinction at the inputs used).  Text
columns that the theorems inspect character by character (tracking codes,
md5 digests) are modelled as `List Char`; opaque text payloads stay `String`.
-/

namespace SwiftCare

/-- Request status enumeration, from the CHECK constraint on
`emergency_requests.status`:
`('pending','assigned','en_route','arrived','completed','cancelled')`. -/
inductive ReqStatus
  | pending | assigned | enRoute | arrived | completed | cancelled
  deriving DecidableEq

/-- Ambulance status enumeration, from the CHECK constraint on
`ambulances.status`: `('available','en_route','arrived','busy','offline')`. -/
inductive AmbStatus
  | available | enRoute | arrived | busy | offline
  deriving DecidableEq

/-- Row of the `ambulances` table (the columns the core logic touches).
`base_lat`/`base_lng` are the base-station reference columns added by the
later migration; no operation of the core ever writes them. -/
structure Ambulance where
  id : Nat
  driver_id : Option Nat
  plate_number : String
  status : AmbStatus
  current_lat : Option ℚ
  current_lng : Option ℚ
  base_lat : Option ℚ
  base_lng : Option ℚ
  deriving DecidableEq

/-- Row of the `emergency_requests` table (the columns the core logic
touches).  Timestamps are abstract `Nat` ticks. -/
structure Request where
  id : Nat
  tracking_code : List Char
  requester_phone : String
  emergency_type : String
  location_lat : ℚ
  location_lng : ℚ
  status : ReqStatus
  assigned_ambulance_id : Option Nat
  assigned_driver_id : Option Nat
  completed_at : Option Nat
  deriving DecidableEq

/-- Fallback latitude from `COALESCE(a.current_lat, 9.0579)`. -/
def fallback_lat : ℚ := 90579 / 10000

/-- Fallback longitude from `COALESCE(a.current_lng, 7.4951)`. -/
def fallback_lng : ℚ := 74951 / 10000

/-- Latitude the dispatch query uses for an ambulance:
`COALESCE(a.current_lat, 9.0579)`. -/
def effLat (a : Ambulance) : ℚ := a.current_lat.getD fallback_lat

/-- Longitude the dispatch query uses for an ambulance:
`COALESCE(a.current_lng, 7.4951)`. -/
def effLng (a : Ambulance) : ℚ := a.current_lng.getD fallback_lng

/-- Square of the planar distance computed inside the dispatch query:
`POWER(COALESCE(current_lat,9.0579) - location_lat, 2) +
 POWER(COALESCE(current_lng,7.4951) - location_lng, 2)`.
The query orders by the square root of this value; square root is monotone,
so ordering by `dist2` is ordering by the SQL `distance` column. -/
def dist2 (a : Ambulance) (lat lng : ℚ) : ℚ :=
  (effLat a - lat) ^ 2 + (effLng a - lng) ^ 2

/-- Distance column exactly as the SQL query computes it
(`SQRT(POWER(..,2) + POWER(..,2))`), as a real number. -/
noncomputable def sqlDistance (a : Ambulance) (lat lng : ℚ) : ℝ :=
  Real.sqrt (((effLat a : ℝ) - (lat : ℝ)) ^ 2 + ((effLng a : ℝ) - (lng : ℝ)) ^ 2)

/-- Candidate filter of the dispatch query:
`WHERE a.status = 'available' AND a.driver_id IS NOT NULL`. -/
def isCandidate (a : Ambulance) : Bool :=
  a.status = AmbStatus.available && a.driver_id.isSome

/-- One comparison step of `ORDER BY distance ASC LIMIT 1`: keep the current
best row unless the new row is strictly closer (ties keep the earlier row). -/
def closer (lat lng : ℚ) (best : Option Ambulance) (a : Ambulance) : Option Ambulance :=
  match best with
  | none => some a
  | some b => if dist2 a lat lng < dist2 b lat lng then some a else some b

/-- The `SELECT ... WHERE ... ORDER BY distance ASC LIMIT 1` of
`auto_dispatch_ambulance`: the candidate row minimising the distance column,
or `none` when the filtered set is empty. -/
def selectNearest (ambs : List Ambulance) (lat lng : ℚ) : Option Ambulance :=
  (ambs.filter isCandidate).foldl (closer lat lng) none

/-- The `UPDATE ambulances SET status = 'busy' WHERE id = ...` step. -/
def markBusy (ambs : List Ambulance) (aid : Nat) : List Ambulance :=
  ambs.map fun a => if a.id = aid then { a with status := AmbStatus.busy } else a

/-- The trigger function `auto_dispatch_ambulance` (BEFORE INSERT on
`emergency_requests`): only for `NEW.status = 'pending' AND
NEW.assigned_ambulance_id IS NULL`; selects the nearest available ambulance
with a driver; if found, sets the request's assignment fields and status and
marks the ambulance busy; otherwise returns `NEW` unchanged.  Result:
(the `NEW` row returned, the ambulance table after the trigger). -/
def auto_dispatch_ambulance (req : Request) (ambs : List Ambulance) :
    Request × List Ambulance :=
  if req.status = ReqStatus.pending ∧ req.assigned_ambulance_id = none then
    match selectNearest ambs req.location_lat req.location_lng with
    | some a =>
        ({ req with
            assigned_ambulance_id := some a.id
            assigned_driver_id := a.driver_id
            status := ReqStatus.assigned },
         markBusy ambs a.id)
    | none => (req, ambs)
  else (req, ambs)

/-- Characterisation of the fold implementing `ORDER BY distance ASC LIMIT 1`:
it returns `none` only from an empty list and an empty accumulator, and any
returned row comes from the accumulator or the list and minimises `dist2`
among both. -/
theorem foldl_closer_spec (lat lng : ℚ) (l : List Ambulance) :
    ∀ acc : Option Ambulance,
      (l.foldl (closer lat lng) acc = none → acc = none ∧ l = []) ∧
      (∀ a, l.foldl (closer lat lng) acc = some a →
        (acc = some a ∨ a ∈ l) ∧
        (∀ b, acc = some b → dist2 a lat lng ≤ dist2 b lat lng) ∧
        (∀ b ∈ l, dist2 a lat lng ≤ dist2 b lat lng)) := by
  induction l with
  | nil =>
      intro acc
      refine ⟨fun h => ⟨h, rfl⟩, fun a h => ?_⟩
      simp only [List.foldl_nil] at h
      refine ⟨Or.inl h, fun b hb => ?_, by simp⟩
      rw [h] at hb
      injection hb with e
      rw [e]
  | cons x t ih =>
      intro acc
      constructor
      · intro h
        simp only [List.foldl_cons] at h
        have h1 := ((ih (closer lat lng acc x)).1 h).1
        exfalso
        cases acc with
        | none => simp [closer] at h1
        | some b =>
            simp only [closer] at h1
            split at h1 <;> simp at h1
      · intro a h
        simp only [List.foldl_cons] at h
        obtain ⟨hmem, hacc, hmin⟩ := (ih (closer lat lng acc x)).2 a h
        cases acc with
        | none =>
            have hx : dist2 a lat lng ≤ dist2 x lat lng := hacc x rfl
            refine ⟨Or.inr ?_, ?_, ?_⟩
            · rcases hmem with hm | hm
              · injection hm with e; rw [← e]; exact List.mem_cons_self x t
              · exact List.mem_cons_of_mem x hm
            · intro b hb
              cases hb
            · intro b hb
              rcases List.mem_cons.1 hb with hb | hb
              · rw [hb]; exact hx
              · exact hmin b hb
        | some c =>
            by_cases hlt : dist2 x lat lng < dist2 c lat lng
            · have hcl : closer lat lng (some c) x = some x := by
                simp [closer, hlt]
              rw [hcl] at hmem hacc
              have hx : dist2 a lat lng ≤ dist2 x lat lng := hacc x rfl
              refine ⟨Or.inr ?_, ?_, ?_⟩
              · rcases hmem with hm | hm
                · injection hm with e; rw [← e]; exact List.mem_cons_self x t
                · exact List.mem_cons_of_mem x hm
              · intro b hb
                injection hb with e
                rw [← e]
                exact le_trans hx (le_of_lt hlt)
              · intro b hb
                rcases List.mem_cons.1 hb with hb | hb
                · rw [hb]; exact hx
                · exact hmin b hb
            · have hcl : closer lat lng (some c) x = some c := by
                simp [closer, hlt]
              rw [hcl] at hmem hacc
              have hc : dist2 a lat lng ≤ dist2 c lat lng := hacc c rfl
              refine ⟨?_, ?_, ?_⟩
              · rcases hmem with hm | hm
                · exact Or.inl hm
                · exact Or.inr (List.mem_cons_of_mem x hm)
              · intro b hb
                injection hb with e
                rw [← e]
                exact hc
              · intro b hb
                rcases List.mem_cons.1 hb with hb | hb
                · rw [hb]
                  exact le_trans hc (not_lt.1 hlt)
                · exact hmin b hb

/-- The dispatch query returns no row exactly when the candidate filter is
empty. -/
theorem selectNearest_none_iff (ambs : List Ambulance) (lat lng : ℚ) :
    selectNearest ambs lat lng = none ↔ ambs.filter isCandidate = [] := by
  constructor
  · intro h
    exact ((foldl_closer_spec lat lng (ambs.filter isCandidate) none).1 h).2
  · intro h
    unfold selectNearest
    rw [h]
    rfl

/-- A row returned by the dispatch query is a candidate minimising `dist2`
over all candidates. -/
theorem selectNearest_spec (ambs : List Ambulance) (lat lng : ℚ) (a : Ambulance)
    (h : selectNearest ambs lat lng = some a) :
    a ∈ ambs.filter isCandidate ∧
      ∀ b ∈ ambs.filter isCandidate, dist2 a lat lng ≤ dist2 b lat lng := by
  obtain ⟨hmem, _, hmin⟩ :=
    (foldl_closer_spec lat lng (ambs.filter isCandidate) none).2 a h
  rcases hmem with hm | hm
  · cases hm
  · exact ⟨hm, hmin⟩

/-- Ordering by the squared planar deltas is ordering by the SQL `SQRT`
distance column. -/
theorem sqlDistance_le_of_dist2_le (a b : Ambulance) (lat lng : ℚ)
    (h : dist2 a lat lng ≤ dist2 b lat lng) :
    sqlDistance a lat lng ≤ sqlDistance b lat lng := by
  unfold sqlDistance
  apply Real.sqrt_le_sqrt
  have h' := h
  unfold dist2 at h'
  exact_mod_cast h'

/-- C1 (amended): for a new pending, unassigned request the dispatch engine
selects, among ambulances with status `available` and a non-null driver
reference, one whose SQL distance column — the square root of the sum of the
squared raw coordinate deltas, with null coordinates coalesced to the fixed
fallback point — is minimal, assigning its id and driver to the request; it
selects none exactly when the filtered set is empty, and the request then
stays pending and unassigned. -/
theorem C1_dispatch_selects_planar_nearest (ambs : List Ambulance) (req : Request)
    (hp : req.status = ReqStatus.pending) (hna : req.assigned_ambulance_id = none) :
    (∀ a, selectNearest ambs req.location_lat req.location_lng = some a →
        a ∈ ambs.filter isCandidate ∧
        (∀ b ∈ ambs.filter isCandidate,
            sqlDistance a req.location_lat req.location_lng ≤
              sqlDistance b req.location_lat req.location_lng) ∧
        (auto_dispatch_ambulance req ambs).1.assigned_ambulance_id = some a.id ∧
        (auto_dispatch_ambulance req ambs).1.assigned_driver_id = a.driver_id ∧
        (auto_dispatch_ambulance req ambs).1.status = ReqStatus.assigned) ∧
    (selectNearest ambs req.location_lat req.location_lng = none →
        ambs.filter isCandidate = [] ∧
        auto_dispatch_ambulance req ambs = (req, ambs)) ∧
    (ambs.filter isCandidate = [] →
        selectNearest ambs req.location_lat req.location_lng = none) := by
  refine ⟨?_, ?_, ?_⟩
  · intro a ha
    obtain ⟨hmem, hmin⟩ := selectNearest_spec ambs _ _ a ha
    have hres : auto_dispatch_ambulance req ambs =
        ({ req with
            assigned_ambulance_id := some a.id
            assigned_driver_id := a.driver_id
            status := ReqStatus.assigned },
          markBusy ambs a.id) := by
      unfold auto_dispatch_ambulance
      rw [if_pos ⟨hp, hna⟩, ha]
    exact ⟨hmem, fun b hb => sqlDistance_le_of_dist2_le a b _ _ (hmin b hb),
      by rw [hres], by rw [hres], by rw [hres]⟩
  · intro h
    refine ⟨(selectNearest_none_iff ambs _ _).1 h, ?_⟩
    unfold auto_dispatch_ambulance
    rw [if_pos ⟨hp, hna⟩, h]
  · intro h
    exact (selectNearest_none_iff ambs _ _).2 h

/-- C3: the dispatch trigger is a no-op on a request that is not pending or
already carries an assigned ambulance: the request is returned unchanged and
the ambulance table is not touched. -/
theorem C3_dispatch_noop (req : Request) (ambs : List Ambulance)
    (h : req.status ≠ ReqStatus.pending ∨ req.assigned_ambulance_id ≠ none) :
    auto_dispatch_ambulance req ambs = (req, ambs) := by
  unfold auto_dispatch_ambulance
  rw [if_neg]
  rintro ⟨h1, h2⟩
  rcases h with h | h
  · exact h h1
  · exact h h2

/-- JavaScript `Math.atan2(y, x)`: the angle of the point `(x, y)`, in
`(-π, π]`, as specified for the ECMAScript builtin used by
`calculateDistance`. -/
noncomputable def atan2 (y x : ℝ) : ℝ :=
  if 0 < x then Real.arctan (y / x)
  else if x < 0 then
    (if 0 ≤ y then Real.arctan (y / x) + Real.pi else Real.arctan (y / x) - Real.pi)
  else
    (if 0 < y then Real.pi / 2 else if y < 0 then -(Real.pi / 2) else 0)

/-- The `a` intermediate of `calculateDistance` (the haversine of the central
angle):
`sin(dLat/2)·sin(dLat/2) + cos(lat1·π/180)·cos(lat2·π/180)·sin(dLng/2)·sin(dLng/2)`. -/
noncomputable def havA (lat1 lng1 lat2 lng2 : ℝ) : ℝ :=
  Real.sin ((lat2 - lat1) * Real.pi / 180 / 2) *
      Real.sin ((lat2 - lat1) * Real.pi / 180 / 2) +
    Real.cos (lat1 * Real.pi / 180) * Real.cos (lat2 * Real.pi / 180) *
        Real.sin ((lng2 - lng1) * Real.pi / 180 / 2) *
      Real.sin ((lng2 - lng1) * Real.pi / 180 / 2)

/-- The repository's haversine distance helper `calculateDistance`
(map component): Earth radius 6371 km,
`c = 2 · atan2(√a, √(1-a))`, result `R · c`. -/
noncomputable def calculateDistance (lat1 lng1 lat2 lng2 : ℝ) : ℝ :=
  let R : ℝ := 6371
  let dLat := (lat2 - lat1) * Real.pi / 180
  let dLng := (lng2 - lng1) * Real.pi / 180
  let a :=
    Real.sin (dLat / 2) * Real.sin (dLat / 2) +
      Real.cos (lat1 * Real.pi / 180) * Real.cos (lat2 * Real.pi / 180) *
          Real.sin (dLng / 2) * Real.sin (dLng / 2)
  let c := 2 * atan2 (Real.sqrt a) (Real.sqrt (1 - a))
  R * c

theorem calculateDistance_eq (lat1 lng1 lat2 lng2 : ℝ) :
    calculateDistance lat1 lng1 lat2 lng2 =
      6371 * (2 * atan2 (Real.sqrt (havA lat1 lng1 lat2 lng2))
        (Real.sqrt (1 - havA lat1 lng1 lat2 lng2))) := rfl

theorem atan2_of_pos_x (y x : ℝ) (hx : 0 < x) : atan2 y x = Real.arctan (y / x) := by
  unfold atan2
  rw [if_pos hx]

/-- The haversine distance is strictly monotone in the `a` intermediate on
`(0, 1)`. -/
theorem haversine_lt_of_havA_lt (A B : ℝ) (hA0 : 0 < A) (hAB : A < B) (hB1 : B < 1) :
    6371 * (2 * atan2 (Real.sqrt A) (Real.sqrt (1 - A))) <
      6371 * (2 * atan2 (Real.sqrt B) (Real.sqrt (1 - B))) := by
  have h1A : 0 < 1 - A := by linarith
  have h1B : 0 < 1 - B := by linarith
  have hxA : 0 < Real.sqrt (1 - A) := Real.sqrt_pos.2 h1A
  have hxB : 0 < Real.sqrt (1 - B) := Real.sqrt_pos.2 h1B
  rw [atan2_of_pos_x _ _ hxA, atan2_of_pos_x _ _ hxB]
  have hnum : Real.sqrt A < Real.sqrt B := Real.sqrt_lt_sqrt (le_of_lt hA0) hAB
  have hden : Real.sqrt (1 - B) < Real.sqrt (1 - A) :=
    Real.sqrt_lt_sqrt (le_of_lt h1B) (by linarith)
  have hratio : Real.sqrt A / Real.sqrt (1 - A) < Real.sqrt B / Real.sqrt (1 - B) := by
    rw [div_lt_div_iff₀ hxA hxB]
    calc Real.sqrt A * Real.sqrt (1 - B)
        < Real.sqrt B * Real.sqrt (1 - B) := mul_lt_mul_of_pos_right hnum hxB
      _ < Real.sqrt B * Real.sqrt (1 - A) :=
          mul_lt_mul_of_pos_left hden (lt_of_le_of_lt (Real.sqrt_nonneg A) hnum)
  have := Real.arctan_strictMono hratio
  linarith

/-- Value of the haversine `a` intermediate from the counterexample ambulance
at `(60, 10)` to the request at `(60, 0)`: `cos(π/3)² · sin(π/36)²`. -/
theorem havA_A_eq :
    havA 60 10 60 0 = Real.sin (Real.pi / 36) ^ 2 / 4 := by
  have e1 : ((60 : ℝ) - 60) * Real.pi / 180 / 2 = 0 := by ring
  have e2 : (60 : ℝ) * Real.pi / 180 = Real.pi / 3 := by ring
  have e3 : ((0 : ℝ) - 10) * Real.pi / 180 / 2 = -(Real.pi / 36) := by ring
  unfold havA
  rw [e1, e2, e3, Real.sin_zero, Real.cos_pi_div_three, Real.sin_neg]
  ring

/-- Value of the haversine `a` intermediate from the counterexample ambulance
at `(65.1, 0)` to the request at `(60, 0)`: `sin(17π/1200)²`. -/
theorem havA_B_eq :
    havA (651 / 10) 0 60 0 = Real.sin (17 * Real.pi / 1200) ^ 2 := by
  have e1 : ((60 : ℝ) - 651 / 10) * Real.pi / 180 / 2 = -(17 * Real.pi / 1200) := by
    ring
  have e2 : ((0 : ℝ) - 0) * Real.pi / 180 / 2 = 0 := by ring
  unfold havA
  rw [e1, e2, Real.sin_zero, Real.sin_neg]
  ring

theorem sin_pi_div_36_pos : 0 < Real.sin (Real.pi / 36) := by
  apply Real.sin_pos_of_pos_of_lt_pi
  · positivity
  · nlinarith [Real.pi_pos]

theorem sin_17pi_div_1200_pos : 0 < Real.sin (17 * Real.pi / 1200) := by
  apply Real.sin_pos_of_pos_of_lt_pi
  · positivity
  · nlinarith [Real.pi_pos]

/-- Numeric core of the counterexample: `sin(π/36)/2 < sin(17π/1200)`,
i.e. the `(60,10)` ambulance has the strictly smaller haversine `a`. -/
theorem half_sin_lt : Real.sin (Real.pi / 36) / 2 < Real.sin (17 * Real.pi / 1200) := by
  have h1 : Real.sin (Real.pi / 36) < Real.pi / 36 :=
    Real.sin_lt (by positivity)
  have hle1 : 17 * Real.pi / 1200 ≤ 1 := by
    nlinarith [Real.pi_lt_d2]
  have h2 : 17 * Real.pi / 1200 - (17 * Real.pi / 1200) ^ 3 / 4 <
      Real.sin (17 * Real.pi / 1200) :=
    Real.sin_gt_sub_cube (by positivity) hle1
  have hsq : Real.pi ^ 2 < 10 := by
    nlinarith [Real.pi_lt_d2, Real.pi_pos]
  have hcube : Real.pi ^ 3 < 10 * Real.pi := by
    nlinarith [hsq, Real.pi_pos]
  have expand : (17 * Real.pi / 1200) ^ 3 = 4913 / 1728000000 * Real.pi ^ 3 := by
    ring
  have key : Real.pi / 72 ≤ 17 * Real.pi / 1200 - (17 * Real.pi / 1200) ^ 3 / 4 := by
    rw [expand]
    linarith [Real.pi_pos, hcube]
  linarith

/-- Pending request at latitude 60, longitude 0, used to separate the planar
ordering from the haversine ordering. -/
def reqCX : Request :=
  { id := 1, tracking_code := [], requester_phone := "p",
    emergency_type := "medical", location_lat := 60, location_lng := 0,
    status := ReqStatus.pending, assigned_ambulance_id := none,
    assigned_driver_id := none, completed_at := none }

/-- Available ambulance with a driver at `(60, 10)`: planar distance 10
degrees, haversine distance about 555 km (longitude degrees shrink at
latitude 60). -/
def ambCXA : Ambulance :=
  { id := 1, driver_id := some 1, plate_number := "AMB-A",
    status := AmbStatus.available, current_lat := some 60,
    current_lng := some 10, base_lat := none, base_lng := none }

/-- Available ambulance with a driver at `(65.1, 0)`: planar distance 5.1
degrees, haversine distance about 567 km. -/
def ambCXB : Ambulance :=
  { id := 2, driver_id := some 2, plate_number := "AMB-B",
    status := AmbStatus.available, current_lat := some (651 / 10),
    current_lng := some 0, base_lat := none, base_lng := none }

theorem filterCX : [ambCXA, ambCXB].filter isCandidate = [ambCXA, ambCXB] := rfl

theorem dist2_CXA : dist2 ambCXA reqCX.location_lat reqCX.location_lng = 100 := by
  norm_num [dist2, effLat, effLng, ambCXA, reqCX]

theorem dist2_CXB :
    dist2 ambCXB reqCX.location_lat reqCX.location_lng = 2601 / 100 := by
  norm_num [dist2, effLat, effLng, ambCXB, reqCX]

/-- On the counterexample pool the dispatch query returns `ambCXB`: its raw
planar coordinate delta (5.1 degrees of latitude) is smaller than `ambCXA`'s
(10 degrees of longitude). -/
theorem selCX :
    selectNearest [ambCXA, ambCXB] reqCX.location_lat reqCX.location_lng =
      some ambCXB := by
  unfold selectNearest
  rw [filterCX]
  simp only [List.foldl_cons, List.foldl_nil]
  have h1 : closer reqCX.location_lat reqCX.location_lng none ambCXA =
      some ambCXA := rfl
  rw [h1]
  show (if dist2 ambCXB reqCX.location_lat reqCX.location_lng <
      dist2 ambCXA reqCX.location_lat reqCX.location_lng
    then some ambCXB else some ambCXA) = some ambCXB
  rw [dist2_CXA, dist2_CXB,
    if_pos (show (2601 : ℚ) / 100 < 100 by norm_num)]

/-- Counterexample to C1 as stated: on the pool `[ambCXA, ambCXB]` the
dispatch engine assigns `ambCXB` (it minimises the raw planar coordinate
delta the SQL query actually computes), yet the candidate `ambCXA` is
strictly closer to the request location by the haversine distance the
repository's own `calculateDistance` computes.  So the engine does not
select the candidate with minimum haversine distance. -/
theorem C1_counterexample :
    (auto_dispatch_ambulance reqCX [ambCXA, ambCXB]).1.assigned_ambulance_id =
        some ambCXB.id ∧
      ambCXB.id ≠ ambCXA.id ∧
      ambCXA ∈ [ambCXA, ambCXB].filter isCandidate ∧
      calculateDistance 60 10 60 0 < calculateDistance (651 / 10) 0 60 0 := by
  refine ⟨?_, by decide, ?_, ?_⟩
  · unfold auto_dispatch_ambulance
    rw [if_pos ⟨rfl, rfl⟩, selCX]
  · rw [filterCX]
    exact List.mem_cons_self _ _
  rw [calculateDistance_eq, calculateDistance_eq, havA_A_eq, havA_B_eq]
  have hA0 : 0 < Real.sin (Real.pi / 36) ^ 2 / 4 := by
    have := sin_pi_div_36_pos
    positivity
  have hAB : Real.sin (Real.pi / 36) ^ 2 / 4 < Real.sin (17 * Real.pi / 1200) ^ 2 := by
    nlinarith [half_sin_lt, sin_pi_div_36_pos, sin_17pi_div_1200_pos]
  have hB1 : Real.sin (17 * Real.pi / 1200) ^ 2 < 1 := by
    have h1 : Real.sin (17 * Real.pi / 1200) < 17 * Real.pi / 1200 :=
      Real.sin_lt (by positivity)
    have h2 : 17 * Real.pi / 1200 < 1 := by nlinarith [Real.pi_lt_d2]
    nlinarith [sin_17pi_div_1200_pos]
  exact haversine_lt_of_havA_lt _ _ hA0 hAB hB1

/-- Witness for `C1_dispatch_selects_planar_nearest` at the concrete pool of
the counterexample: the hypotheses (pending, unassigned) hold and the
selected `ambCXB` satisfies the amended minimality property. -/
theorem C1_dispatch_selects_planar_nearest_witness :
    ambCXB ∈ [ambCXA, ambCXB].filter isCandidate ∧
      (∀ b ∈ [ambCXA, ambCXB].filter isCandidate,
          sqlDistance ambCXB reqCX.location_lat reqCX.location_lng ≤
            sqlDistance b reqCX.location_lat reqCX.location_lng) ∧
      (auto_dispatch_ambulance reqCX [ambCXA, ambCXB]).1.assigned_ambulance_id =
        some ambCXB.id ∧
      (auto_dispatch_ambulance reqCX [ambCXA, ambCXB]).1.assigned_driver_id =
        ambCXB.driver_id ∧
      (auto_dispatch_ambulance reqCX [ambCXA, ambCXB]).1.status =
        ReqStatus.assigned := by
  have h := (C1_dispatch_selects_planar_nearest [ambCXA, ambCXB] reqCX
    rfl rfl).1 ambCXB selCX
  exact ⟨h.1, h.2.1, h.2.2.1, h.2.2.2.1, h.2.2.2.2⟩

/-- Lower-case hexadecimal digit (`[0-9a-f]`, code points 48-57 and 97-102):
the alphabet of the Postgres `md5(...)` digest that `generate_tracking_code`
consumes. -/
def isHexLower (c : Char) : Bool :=
  (48 ≤ c.toNat && c.toNat ≤ 57) || (97 ≤ c.toNat && c.toNat ≤ 102)

/-- Uppercase letter or digit (`[A-Z0-9]`, code points 65-90 and 48-57): the
alphabet of the claimed tracking-code format. -/
def isUpperAlnum (c : Char) : Bool :=
  (65 ≤ c.toNat && c.toNat ≤ 90) || (48 ≤ c.toNat && c.toNat ≤ 57)

/-- Body of the `generate_tracking_code` trigger:
`NEW.tracking_code = 'SC-' || UPPER(SUBSTRING(md5(gen_random_uuid()::text) FROM 1 FOR 8))`,
as a function of the digest produced by `md5` (which is always 32 lower-case
hex characters). -/
def generate_tracking_code (digest : List Char) : List Char :=
  'S' :: 'C' :: '-' :: (digest.take 8).map Char.toUpper

/-- Decidable check of the claimed format: `SC-` followed by exactly 8
characters in `[A-Z0-9]`. -/
def validTrackingCode (s : List Char) : Bool :=
  match s with
  | c1 :: c2 :: c3 :: rest =>
      c1 == 'S' && c2 == 'C' && c3 == '-' && rest.length == 8 &&
        rest.all isUpperAlnum
  | _ => false

/-- The two mutable tables of the core. -/
structure DB where
  ambulances : List Ambulance
  requests : List Request
  deriving DecidableEq

/-- The row as the public form inserts it: defaults `status = 'pending'`, no
assignment fields, default tracking code `'TEMP'`. -/
def insertedRequest (rid : Nat) (phone etype : String) (lat lng : ℚ) : Request :=
  { id := rid, tracking_code := ['T', 'E', 'M', 'P'], requester_phone := phone,
    emergency_type := etype, location_lat := lat, location_lng := lng,
    status := ReqStatus.pending, assigned_ambulance_id := none,
    assigned_driver_id := none, completed_at := none }

/-- The new row and the ambulance table after both BEFORE INSERT triggers:
`set_tracking_code` overwrites the tracking code unconditionally, then
`trigger_auto_dispatch` runs the dispatch. -/
def dispatched (s : DB) (rid : Nat) (phone etype : String) (lat lng : ℚ)
    (digest : List Char) : Request × List Ambulance :=
  auto_dispatch_ambulance
    { insertedRequest rid phone etype lat lng with
        tracking_code := generate_tracking_code digest }
    s.ambulances

/-- Public request creation (the RequestAmbulance form insert): the row is
inserted with the defaults `status = 'pending'`, no assignment fields and the
default tracking code `'TEMP'`; the BEFORE INSERT triggers then overwrite the
tracking code from the md5 digest of a fresh uuid and run auto-dispatch.
The unique constraints (primary key on `id`, UNIQUE on `tracking_code`)
reject a duplicate, rolling back the whole transaction, trigger effects
included. -/
def createRequest (s : DB) (rid : Nat) (phone etype : String) (lat lng : ℚ)
    (digest : List Char) : DB :=
  if ∃ r ∈ s.requests, r.id = rid ∨
      r.tracking_code = (dispatched s rid phone etype lat lng digest).1.tracking_code
  then s
  else
    { ambulances := (dispatched s rid phone etype lat lng digest).2
      requests := s.requests ++ [(dispatched s rid phone etype lat lng digest).1] }

/-- Effect of the admin assignment `update` on one request row: the row with
the chosen id gets the ambulance, the ambulance's driver and status
`assigned`. -/
def assignRequestRow (rid aid : Nat) (d : Option Nat) (r : Request) : Request :=
  if r.id = rid then
    { r with
        assigned_ambulance_id := some aid
        assigned_driver_id := d
        status := ReqStatus.assigned }
  else r

/-- Admin manual assignment (AdminDashboard `assignAmbulance`): look the
chosen ambulance up in the fetched list; abort with an error toast when it is
missing or has no driver; otherwise update the request row (assignment fields
and status `assigned`; the admin RLS policy permits the update) and then set
the ambulance's status to `busy`. -/
def assignAmbulance (s : DB) (rid aid : Nat) : DB :=
  match s.ambulances.find? (fun a => a.id == aid) with
  | none => s
  | some amb =>
      if amb.driver_id = none then s
      else
        { ambulances := markBusy s.ambulances aid
          requests := s.requests.map (assignRequestRow rid aid amb.driver_id) }

/-- Ambulance status derived from the new request status inside
`updateRequestStatus`: `let ambStatus = 'busy'` overridden for
completed / en_route / arrived. -/
def ambStatusFor : ReqStatus → AmbStatus
  | ReqStatus.completed => AmbStatus.available
  | ReqStatus.enRoute => AmbStatus.enRoute
  | ReqStatus.arrived => AmbStatus.arrived
  | _ => AmbStatus.busy

/-- Result of a driver dashboard `updateRequestStatus` call: the database
afterwards, and whether an error was surfaced to the driver. -/
structure UpdateResult where
  db : DB
  reportedError : Bool
  deriving DecidableEq

/-- The driver dashboard's `.single()` fetch of the driver's own ambulance
(`.eq('driver_id', user.id).single()`): exactly one matching row, else null. -/
def driverAmbulance (ambs : List Ambulance) (uid : Nat) : Option Ambulance :=
  match ambs.filter (fun a => a.driver_id == some uid) with
  | [a] => some a
  | _ => none

/-- The driver dashboard's fetched assignment list:
`.eq('assigned_driver_id', user.id).in('status', ['assigned','en_route','arrived'])`. -/
def driverRequests (reqs : List Request) (uid : Nat) : List Request :=
  reqs.filter fun r =>
    r.assigned_driver_id == some uid &&
      (r.status == ReqStatus.assigned || r.status == ReqStatus.enRoute ||
        r.status == ReqStatus.arrived)

/-- Effect of the request `update` on one row: rows passing both the `eq`
filter and the RLS policy get the new status and the recomputed
`completed_at` (`newStatus === 'completed' ? new Date().toISOString() : null`);
all other rows are untouched. -/
def applyRequestUpdate (uid rid : Nat) (newStatus : ReqStatus) (now : Nat)
    (r : Request) : Request :=
  if r.id = rid ∧ r.assigned_driver_id = some uid then
    { r with
        status := newStatus
        completed_at :=
          if newStatus = ReqStatus.completed then some now else none }
  else r

/-- Effect of the ambulance `update` on one row: the row with the fetched
ambulance's id, provided it passes the RLS policy `driver_id = auth.uid()`,
gets the derived status, plus the located request's coordinates when the new
status is `arrived` and the request was found in the client list. -/
def applyAmbulanceUpdate (uid bid : Nat) (newStatus : ReqStatus)
    (request? : Option Request) (a : Ambulance) : Ambulance :=
  if a.id = bid ∧ a.driver_id = some uid then
    if newStatus = ReqStatus.arrived then
      match request? with
      | some req =>
          { a with
              status := ambStatusFor newStatus
              current_lat := some req.location_lat
              current_lng := some req.location_lng }
      | none => { a with status := ambStatusFor newStatus }
    else { a with status := ambStatusFor newStatus }
  else a

/-- The driver dashboard `updateRequestStatus(requestId, newStatus)` call by
the authenticated user `uid`.

The request `update` goes through the RLS policy "Assigned drivers can update
requests" (`assigned_driver_id = auth.uid()`): rows failing the policy are
filtered out of the update set.  PostgREST answers such an update (made with
`return=minimal`, no `.select()`) with a success status even when zero rows
matched, so `error` is null and the client takes the success branch
unconditionally: it then updates the driver's own ambulance (permitted by the
policy "Drivers can update own ambulance"), moving it to the derived status
and, on `arrived`, to the located request's coordinates.  `request` is looked
up in the client-side fetched list, so the coordinates written are the
request's coordinates as fetched. -/
def updateRequestStatus (s : DB) (uid rid : Nat) (newStatus : ReqStatus)
    (now : Nat) : UpdateResult :=
  { db :=
      { ambulances :=
          match driverAmbulance s.ambulances uid with
          | none => s.ambulances
          | some b =>
              s.ambulances.map (applyAmbulanceUpdate uid b.id newStatus
                ((driverRequests s.requests uid).find? (fun r => r.id == rid)))
        requests := s.requests.map (applyRequestUpdate uid rid newStatus now) }
    reportedError := false }

theorem find?_eq_some_of_unique {α : Type} {p : α → Bool} {l : List α} {a : α}
    (ha : a ∈ l) (hpa : p a = true) (huniq : ∀ x ∈ l, p x = true → x = a) :
    l.find? p = some a := by
  induction l with
  | nil => cases ha
  | cons x t ih =>
      by_cases hx : p x = true
      · rw [List.find?_cons_of_pos _ hx, huniq x (List.mem_cons_self x t) hx]
      · rw [List.find?_cons_of_neg _ (by simpa using hx)]
        rcases List.mem_cons.1 ha with h | h
        · exact absurd (h ▸ hpa) hx
        · exact ih h (fun y hy hp => huniq y (List.mem_cons_of_mem x hy) hp)

theorem driverAmbulance_of_filter_eq {ambs : List Ambulance} {uid : Nat}
    {b : Ambulance}
    (hb : ambs.filter (fun a => a.driver_id == some uid) = [b]) :
    driverAmbulance ambs uid = some b := by
  unfold driverAmbulance
  rw [hb]

theorem driverAmbulance_eq_some {ambs : List Ambulance} {uid : Nat}
    {b : Ambulance} (h : driverAmbulance ambs uid = some b) :
    b ∈ ambs ∧ b.driver_id = some uid := by
  unfold driverAmbulance at h
  split at h
  · rename_i a heq
    have e : a = b := by injection h
    rw [e] at heq
    have hmem : b ∈ ambs.filter (fun x => x.driver_id == some uid) := by
      rw [heq]
      exact List.mem_cons_self b []
    refine ⟨List.mem_of_mem_filter hmem, ?_⟩
    have hp := List.of_mem_filter hmem
    simpa using hp
  · cases h

theorem updateRequestStatus_requests (s : DB) (uid rid : Nat) (st : ReqStatus)
    (now : Nat) :
    (updateRequestStatus s uid rid st now).db.requests =
      s.requests.map (applyRequestUpdate uid rid st now) := rfl

theorem updateRequestStatus_noError (s : DB) (uid rid : Nat) (st : ReqStatus)
    (now : Nat) :
    (updateRequestStatus s uid rid st now).reportedError = false := rfl

theorem updateRequestStatus_ambulances (s : DB) (uid rid : Nat) (st : ReqStatus)
    (now : Nat) {b : Ambulance}
    (hdb : driverAmbulance s.ambulances uid = some b) :
    (updateRequestStatus s uid rid st now).db.ambulances =
      s.ambulances.map (applyAmbulanceUpdate uid b.id st
        ((driverRequests s.requests uid).find? (fun r => r.id == rid))) := by
  unfold updateRequestStatus
  rw [hdb]

/-- C5: when the assigned driver advances their request to `completed`, the
request's `completed_at` is set to the current time, the driver's (assigned)
ambulance is reset to `available`, and the ambulance's current coordinates —
and its base-station coordinates — are left exactly as they were. -/
theorem C5_completed_sets_available_keeps_coords
    (s : DB) (uid rid now : Nat) (r : Request) (b : Ambulance)
    (hr : r ∈ s.requests) (hrid : r.id = rid)
    (hdrv : r.assigned_driver_id = some uid)
    (hb : s.ambulances.filter (fun a => a.driver_id == some uid) = [b])
    (_hab : r.assigned_ambulance_id = some b.id) :
    (∃ r' ∈ (updateRequestStatus s uid rid ReqStatus.completed now).db.requests,
        r'.id = rid ∧ r'.status = ReqStatus.completed ∧
          r'.completed_at = some now) ∧
      ∃ b' ∈ (updateRequestStatus s uid rid ReqStatus.completed now).db.ambulances,
        b'.id = b.id ∧ b'.status = AmbStatus.available ∧
          b'.current_lat = b.current_lat ∧ b'.current_lng = b.current_lng ∧
          b'.base_lat = b.base_lat ∧ b'.base_lng = b.base_lng := by
  have hdb : driverAmbulance s.ambulances uid = some b :=
    driverAmbulance_of_filter_eq hb
  obtain ⟨hbmem, hbdrv⟩ := driverAmbulance_eq_some hdb
  constructor
  · rw [updateRequestStatus_requests]
    refine ⟨applyRequestUpdate uid rid ReqStatus.completed now r,
      List.mem_map_of_mem _ hr, ?_⟩
    unfold applyRequestUpdate
    rw [if_pos ⟨hrid, hdrv⟩]
    exact ⟨hrid, rfl, rfl⟩
  · rw [updateRequestStatus_ambulances s uid rid ReqStatus.completed now hdb]
    refine ⟨applyAmbulanceUpdate uid b.id ReqStatus.completed
      ((driverRequests s.requests uid).find? (fun x => x.id == rid)) b,
      List.mem_map_of_mem _ hbmem, ?_⟩
    unfold applyAmbulanceUpdate
    rw [if_pos ⟨rfl, hbdrv⟩, if_neg (by simp)]
    exact ⟨rfl, rfl, rfl, rfl, rfl, rfl⟩

/-- C6: when the assigned driver advances their request to `arrived`, the
ambulance's current coordinates are overwritten with the request's location
coordinates and its status becomes `arrived`. -/
theorem C6_arrived_moves_ambulance
    (s : DB) (uid rid now : Nat) (r : Request) (b : Ambulance)
    (hids : (s.requests.map Request.id).Nodup)
    (hr : r ∈ s.requests) (hrid : r.id = rid)
    (hdrv : r.assigned_driver_id = some uid)
    (hactive : r.status = ReqStatus.assigned ∨ r.status = ReqStatus.enRoute ∨
      r.status = ReqStatus.arrived)
    (hb : s.ambulances.filter (fun a => a.driver_id == some uid) = [b])
    (_hab : r.assigned_ambulance_id = some b.id) :
    (∃ r' ∈ (updateRequestStatus s uid rid ReqStatus.arrived now).db.requests,
        r'.id = rid ∧ r'.status = ReqStatus.arrived) ∧
      ∃ b' ∈ (updateRequestStatus s uid rid ReqStatus.arrived now).db.ambulances,
        b'.id = b.id ∧ b'.status = AmbStatus.arrived ∧
          b'.current_lat = some r.location_lat ∧
          b'.current_lng = some r.location_lng := by
  have hdb : driverAmbulance s.ambulances uid = some b :=
    driverAmbulance_of_filter_eq hb
  obtain ⟨hbmem, hbdrv⟩ := driverAmbulance_eq_some hdb
  have hfind : (driverRequests s.requests uid).find? (fun x => x.id == rid) =
      some r := by
    apply find?_eq_some_of_unique
    · unfold driverRequests
      rw [List.mem_filter]
      refine ⟨hr, ?_⟩
      rcases hactive with h | h | h <;> simp [h, hdrv]
    · simp [hrid]
    · intro x hx hpx
      have hxmem : x ∈ s.requests :=
        List.mem_of_mem_filter hx
      have hxid : x.id = rid := by simpa using hpx
      exact List.inj_on_of_nodup_map hids hxmem hr (by rw [hxid, hrid])
  constructor
  · rw [updateRequestStatus_requests]
    refine ⟨applyRequestUpdate uid rid ReqStatus.arrived now r,
      List.mem_map_of_mem _ hr, ?_⟩
    unfold applyRequestUpdate
    rw [if_pos ⟨hrid, hdrv⟩]
    exact ⟨hrid, rfl⟩
  · rw [updateRequestStatus_ambulances s uid rid ReqStatus.arrived now hdb]
    refine ⟨applyAmbulanceUpdate uid b.id ReqStatus.arrived
      ((driverRequests s.requests uid).find? (fun x => x.id == rid)) b,
      List.mem_map_of_mem _ hbmem, ?_⟩
    unfold applyAmbulanceUpdate
    rw [if_pos ⟨rfl, hbdrv⟩, if_pos rfl, hfind]
    exact ⟨rfl, rfl, rfl, rfl⟩

/-- C7 (amended): a status transition attempted by a driver who is not the
request's assigned driver leaves every request row unchanged (the RLS policy
filters the update down to zero rows), but no permission error is surfaced —
the client reports success — and the attempting driver's own ambulance is
still moved to the status derived from the attempted transition. -/
theorem C7_wrong_driver_update (s : DB) (uid rid : Nat) (st : ReqStatus)
    (now : Nat)
    (hno : ∀ r ∈ s.requests, r.id = rid → r.assigned_driver_id ≠ some uid) :
    (updateRequestStatus s uid rid st now).db.requests = s.requests ∧
      (updateRequestStatus s uid rid st now).reportedError = false ∧
      ∀ b, driverAmbulance s.ambulances uid = some b →
        ∃ b' ∈ (updateRequestStatus s uid rid st now).db.ambulances,
          b'.id = b.id ∧ b'.status = ambStatusFor st := by
  refine ⟨?_, rfl, ?_⟩
  · rw [updateRequestStatus_requests]
    have hfix : ∀ r ∈ s.requests, applyRequestUpdate uid rid st now r = r := by
      intro r hrr
      unfold applyRequestUpdate
      rw [if_neg]
      rintro ⟨h1, h2⟩
      exact hno r hrr h1 h2
    rw [List.map_congr_left hfix, List.map_id']
  · intro b hdb
    rw [updateRequestStatus_ambulances s uid rid st now hdb]
    obtain ⟨hbmem, hbdrv⟩ := driverAmbulance_eq_some hdb
    refine ⟨applyAmbulanceUpdate uid b.id st
      ((driverRequests s.requests uid).find? (fun r => r.id == rid)) b,
      List.mem_map_of_mem _ hbmem, ?_⟩
    unfold applyAmbulanceUpdate
    rw [if_pos ⟨rfl, hbdrv⟩]
    by_cases harr : st = ReqStatus.arrived
    · subst harr
      have hnone :
          (driverRequests s.requests uid).find? (fun r => r.id == rid) = none := by
        rw [List.find?_eq_none]
        intro x hx hbeq
        unfold driverRequests at hx
        have hxmem := List.mem_of_mem_filter hx
        have hxp := List.of_mem_filter hx
        simp only [Bool.and_eq_true, beq_iff_eq] at hxp
        have hxid : x.id = rid := by simpa using hbeq
        exact hno x hxmem hxid hxp.1
      rw [if_pos rfl, hnone]
      exact ⟨rfl, rfl⟩
    · rw [if_neg harr]
      exact ⟨rfl, rfl⟩

/-- Busy ambulance of the authorised driver 1, assigned to the concrete
request below. -/
def ambC7A : Ambulance :=
  { id := 10, driver_id := some 1, plate_number := "A1",
    status := AmbStatus.busy, current_lat := none, current_lng := none,
    base_lat := none, base_lng := none }

/-- Available ambulance of the attacking driver 2. -/
def ambC7B : Ambulance :=
  { id := 20, driver_id := some 2, plate_number := "B2",
    status := AmbStatus.available, current_lat := none, current_lng := none,
    base_lat := none, base_lng := none }

/-- Request assigned to driver 1 and ambulance 10. -/
def reqC7 : Request :=
  { id := 1, tracking_code := [], requester_phone := "p",
    emergency_type := "fire", location_lat := 0, location_lng := 0,
    status := ReqStatus.assigned, assigned_ambulance_id := some 10,
    assigned_driver_id := some 1, completed_at := none }

def dbC7 : DB := { ambulances := [ambC7A, ambC7B], requests := [reqC7] }

/-- Counterexample to C7 as stated (Scenario C): driver 2, who is not the
assigned driver of request 1, attempts `assigned → en_route`.  The request
row is indeed not mutated, but no permission error is surfaced
(`reportedError = false`: the zero-row update is reported as success) and the
state is NOT left unchanged — driver 2's own ambulance (id 20) is moved from
`available` to `en_route`. -/
theorem C7_counterexample :
    (updateRequestStatus dbC7 2 1 ReqStatus.enRoute 0).reportedError = false ∧
      (updateRequestStatus dbC7 2 1 ReqStatus.enRoute 0).db.requests =
        dbC7.requests ∧
      ((updateRequestStatus dbC7 2 1 ReqStatus.enRoute 0).db.ambulances.find?
          (fun a => a.id == 20)).map Ambulance.status =
        some AmbStatus.enRoute ∧
      (dbC7.ambulances.find? (fun a => a.id == 20)).map Ambulance.status =
        some AmbStatus.available ∧
      (updateRequestStatus dbC7 2 1 ReqStatus.enRoute 0).db ≠ dbC7 := by
  refine ⟨rfl, rfl, rfl, rfl, ?_⟩
  intro h
  have key : ((updateRequestStatus dbC7 2 1 ReqStatus.enRoute 0).db.ambulances.find?
      (fun a => a.id == 20)).map Ambulance.status = some AmbStatus.enRoute := rfl
  rw [h] at key
  have key2 : (dbC7.ambulances.find? (fun a => a.id == 20)).map Ambulance.status =
      some AmbStatus.available := rfl
  rw [key2] at key
  injection key with e
  exact AmbStatus.noConfusion e

/-- Witness for `C7_wrong_driver_update` at the concrete state `dbC7` with
the unauthorised driver 2. -/
theorem C7_wrong_driver_update_witness :
    (updateRequestStatus dbC7 2 1 ReqStatus.enRoute 0).db.requests =
        dbC7.requests ∧
      (updateRequestStatus dbC7 2 1 ReqStatus.enRoute 0).reportedError = false ∧
      ∀ b, driverAmbulance dbC7.ambulances 2 = some b →
        ∃ b' ∈ (updateRequestStatus dbC7 2 1 ReqStatus.enRoute 0).db.ambulances,
          b'.id = b.id ∧ b'.status = ambStatusFor ReqStatus.enRoute :=
  C7_wrong_driver_update dbC7 2 1 ReqStatus.enRoute 0 (by
    intro r hr h1 h2
    have hr' : r = reqC7 := by simpa [dbC7] using hr
    subst hr'
    exact absurd h2 (by decide))

/-- Ambulance of driver 7 used by the C5 witness. -/
def ambC5 : Ambulance :=
  { id := 10, driver_id := some 7, plate_number := "W5",
    status := AmbStatus.arrived, current_lat := some 1, current_lng := some 2,
    base_lat := some 3, base_lng := some 4 }

/-- Request of driver 7 used by the C5 witness. -/
def reqC5 : Request :=
  { id := 1, tracking_code := [], requester_phone := "p",
    emergency_type := "fire", location_lat := 5, location_lng := 6,
    status := ReqStatus.arrived, assigned_ambulance_id := some 10,
    assigned_driver_id := some 7, completed_at := none }

def dbC5 : DB := { ambulances := [ambC5], requests := [reqC5] }

/-- Witness for `C5_completed_sets_available_keeps_coords` at the concrete
state `dbC5`. -/
theorem C5_completed_sets_available_keeps_coords_witness :
    (∃ r' ∈ (updateRequestStatus dbC5 7 1 ReqStatus.completed 99).db.requests,
        r'.id = 1 ∧ r'.status = ReqStatus.completed ∧
          r'.completed_at = some 99) ∧
      ∃ b' ∈ (updateRequestStatus dbC5 7 1 ReqStatus.completed 99).db.ambulances,
        b'.id = ambC5.id ∧ b'.status = AmbStatus.available ∧
          b'.current_lat = ambC5.current_lat ∧
          b'.current_lng = ambC5.current_lng ∧
          b'.base_lat = ambC5.base_lat ∧ b'.base_lng = ambC5.base_lng :=
  C5_completed_sets_available_keeps_coords dbC5 7 1 99 reqC5 ambC5
    (List.mem_cons_self reqC5 []) rfl rfl rfl rfl

/-- Witness for `C6_arrived_moves_ambulance` at the concrete state `dbC5`
(with the request still `en_route`). -/
theorem C6_arrived_moves_ambulance_witness :
    (∃ r' ∈ (updateRequestStatus dbC5 7 1 ReqStatus.arrived 99).db.requests,
        r'.id = 1 ∧ r'.status = ReqStatus.arrived) ∧
      ∃ b' ∈ (updateRequestStatus dbC5 7 1 ReqStatus.arrived 99).db.ambulances,
        b'.id = ambC5.id ∧ b'.status = AmbStatus.arrived ∧
          b'.current_lat = some reqC5.location_lat ∧
          b'.current_lng = some reqC5.location_lng :=
  C6_arrived_moves_ambulance dbC5 7 1 99 reqC5 ambC5 (by decide)
    (List.mem_cons_self reqC5 []) rfl rfl (Or.inr (Or.inr rfl)) rfl rfl

/-- Initial provisioning condition from which reachable states are built: no
requests yet, distinct ambulance row ids, and injective driver references
(each driver drives at most one ambulance — the driver dashboard reads "the
driver's ambulance" with a `.single()` query, which presumes exactly this,
and the seeded fleet satisfies it). -/
def InitOk (s : DB) : Prop :=
  s.requests = [] ∧
    (s.ambulances.map Ambulance.id).Nodup ∧
    ∀ a ∈ s.ambulances, ∀ b ∈ s.ambulances,
      a.driver_id.isSome = true → a.driver_id = b.driver_id → a = b

/-- One operation of the system, each as its UI invokes it:

* `create` — the public submission flow inserting a new request; the digest
  hypotheses record that Postgres `md5` always yields a 32-character
  lower-case hexadecimal digest;
* `adminAssign` — the admin manual assignment; RequestsTab renders the
  control only for a `pending` request and its dropdown only lists
  ambulances filtered to status `available`;
* `driverUpdate` — the driver status change; the dashboard offers it only on
  a fetched request (assigned to this driver, status in
  assigned/en_route/arrived) and only towards en_route/arrived/completed. -/
inductive Step : DB → DB → Prop
  | create (s : DB) (rid : Nat) (phone etype : String) (lat lng : ℚ)
      (digest : List Char) (hlen : digest.length = 32)
      (hhex : ∀ c ∈ digest, isHexLower c = true) :
      Step s (createRequest s rid phone etype lat lng digest)
  | adminAssign (s : DB) (rid aid : Nat) (r : Request) (a : Ambulance)
      (hr : r ∈ s.requests) (hrid : r.id = rid)
      (hpending : r.status = ReqStatus.pending)
      (ha : a ∈ s.ambulances) (haid : a.id = aid)
      (havail : a.status = AmbStatus.available) :
      Step s (assignAmbulance s rid aid)
  | driverUpdate (s : DB) (uid rid : Nat) (st : ReqStatus) (now : Nat)
      (r : Request) (hr : r ∈ s.requests) (hrid : r.id = rid)
      (hdrv : r.assigned_driver_id = some uid)
      (hactive : r.status = ReqStatus.assigned ∨ r.status = ReqStatus.enRoute ∨
        r.status = ReqStatus.arrived)
      (hst : st = ReqStatus.enRoute ∨ st = ReqStatus.arrived ∨
        st = ReqStatus.completed) :
      Step s (updateRequestStatus s uid rid st now).db

/-- States reachable from a state by the operations above. -/
inductive Reachable : DB → DB → Prop
  | refl (s : DB) : Reachable s s
  | tail {s t u : DB} : Reachable s t → Step t u → Reachable s u

/-- A request that still occupies its ambulance: neither completed nor
cancelled. -/
def activeReq (r : Request) : Prop :=
  r.status ≠ ReqStatus.completed ∧ r.status ≠ ReqStatus.cancelled

/-- Inductive invariant of the reachable states. -/
structure Inv (s : DB) : Prop where
  ambIds : (s.ambulances.map Ambulance.id).Nodup
  reqIds : (s.requests.map Request.id).Nodup
  drvInj : ∀ a ∈ s.ambulances, ∀ b ∈ s.ambulances,
    a.driver_id.isSome = true → a.driver_id = b.driver_id → a = b
  refOk : ∀ r ∈ s.requests, activeReq r → ∀ aid,
    r.assigned_ambulance_id = some aid →
      ∃ a ∈ s.ambulances, a.id = aid ∧ a.driver_id = r.assigned_driver_id ∧
        a.driver_id.isSome = true ∧ a.status ≠ AmbStatus.available
  uniqRef : ∀ r ∈ s.requests, ∀ r' ∈ s.requests, activeReq r → activeReq r' →
    ∀ aid, r.assigned_ambulance_id = some aid →
      r'.assigned_ambulance_id = some aid → r = r'
  pairNull : ∀ r ∈ s.requests,
    (r.assigned_ambulance_id = none ↔ r.assigned_driver_id = none)
  codesValid : ∀ r ∈ s.requests, validTrackingCode r.tracking_code = true
  codesNodup : (s.requests.map Request.tracking_code).Nodup

theorem Inv_of_init {s : DB} (h : InitOk s) : Inv s := by
  obtain ⟨hreq, hids, hinj⟩ := h
  refine ⟨hids, ?_, hinj, ?_, ?_, ?_, ?_, ?_⟩ <;> rw [hreq] <;> simp

/-- An `available` ambulance is referenced by no active request (contrapositive
of the status part of `Inv.refOk`, using id injectivity). -/
theorem no_active_ref_of_available {s : DB} (inv : Inv s) {a : Ambulance}
    (ha : a ∈ s.ambulances) (havail : a.status = AmbStatus.available) :
    ∀ r ∈ s.requests, activeReq r → r.assigned_ambulance_id ≠ some a.id := by
  intro r hr hact heq
  obtain ⟨b, hb, hbid, _, _, hbst⟩ := inv.refOk r hr hact a.id heq
  have hba : b = a := List.inj_on_of_nodup_map inv.ambIds hb ha hbid
  rw [hba] at hbst
  exact hbst havail

theorem mem_candidates {ambs : List Ambulance} {a : Ambulance}
    (h : a ∈ ambs.filter isCandidate) :
    a ∈ ambs ∧ a.status = AmbStatus.available ∧ a.driver_id.isSome = true := by
  have h1 := List.mem_of_mem_filter h
  have h2 := List.of_mem_filter h
  unfold isCandidate at h2
  simp only [Bool.and_eq_true, decide_eq_true_eq] at h2
  exact ⟨h1, h2.1, h2.2⟩

theorem markBusy_map_id (ambs : List Ambulance) (aid : Nat) :
    (markBusy ambs aid).map Ambulance.id = ambs.map Ambulance.id := by
  unfold markBusy
  rw [List.map_map]
  apply List.map_congr_left
  intro a _
  by_cases h : a.id = aid <;> simp [h]

theorem mem_markBusy {ambs : List Ambulance} {aid : Nat} {x : Ambulance}
    (hx : x ∈ markBusy ambs aid) :
    ∃ b ∈ ambs, x.id = b.id ∧ x.driver_id = b.driver_id ∧
      (x.status = b.status ∨ x.status = AmbStatus.busy) := by
  obtain ⟨b, hb, hfb⟩ := List.mem_map.1 hx
  refine ⟨b, hb, ?_⟩
  by_cases h : b.id = aid
  · rw [if_pos h] at hfb
    rw [← hfb]
    exact ⟨rfl, rfl, Or.inr rfl⟩
  · rw [if_neg h] at hfb
    rw [← hfb]
    exact ⟨rfl, rfl, Or.inl rfl⟩

theorem markBusy_drvInj {s : DB} (inv : Inv s) (aid : Nat) :
    ∀ x ∈ markBusy s.ambulances aid, ∀ y ∈ markBusy s.ambulances aid,
      x.driver_id.isSome = true → x.driver_id = y.driver_id → x = y := by
  intro x hx y hy hxs hxy
  obtain ⟨b, hb, hfb⟩ := List.mem_map.1 hx
  obtain ⟨c, hc, hfc⟩ := List.mem_map.1 hy
  have hbd : (if b.id = aid then { b with status := AmbStatus.busy } else b).driver_id
      = b.driver_id := by by_cases h : b.id = aid <;> simp [h]
  have hcd : (if c.id = aid then { c with status := AmbStatus.busy } else c).driver_id
      = c.driver_id := by by_cases h : c.id = aid <;> simp [h]
  have hbc : b = c := by
    apply inv.drvInj b hb c hc
    · rw [← hbd, hfb]
      exact hxs
    · rw [← hbd, ← hcd, hfb, hfc]
      exact hxy
  rw [← hfb, ← hfc, hbc]

theorem toNat_ofNat_valid {m : Nat} (h : m.isValidChar) :
    (Char.ofNat m).toNat = m := by
  rw [Char.ofNat, dif_pos h]
  rfl

/-- Uppercasing a lower-case hex digit (as `UPPER` does on ASCII, which is
exactly `Char.toUpper`) yields an uppercase letter or digit. -/
theorem isUpperAlnum_toUpper {c : Char} (h : isHexLower c = true) :
    isUpperAlnum c.toUpper = true := by
  unfold isHexLower at h
  simp only [Bool.or_eq_true, Bool.and_eq_true, decide_eq_true_eq] at h
  simp only [Char.toUpper]
  rcases h with ⟨h1, h2⟩ | ⟨h1, h2⟩
  · rw [if_neg (by omega)]
    unfold isUpperAlnum
    simp only [Bool.or_eq_true, Bool.and_eq_true, decide_eq_true_eq]
    exact Or.inr ⟨h1, h2⟩
  · rw [if_pos ⟨by omega, by omega⟩]
    have hv : (Char.toNat c - 32).isValidChar := Or.inl (by omega)
    unfold isUpperAlnum
    simp only [Bool.or_eq_true, Bool.and_eq_true, decide_eq_true_eq,
      toNat_ofNat_valid hv]
    exact Or.inl ⟨by omega, by omega⟩

/-- The generated tracking code always matches `SC-[A-Z0-9]{8}` when the
digest is at least 8 lower-case hex characters (as an md5 digest is). -/
theorem validTrackingCode_generate {digest : List Char}
    (hlen : 8 ≤ digest.length)
    (hhex : ∀ c ∈ digest, isHexLower c = true) :
    validTrackingCode (generate_tracking_code digest) = true := by
  unfold generate_tracking_code validTrackingCode
  simp only [Bool.and_eq_true, beq_iff_eq, List.length_map, List.length_take,
    List.all_eq_true]
  refine ⟨by simp only [true_and, and_true]; omega, ?_⟩
  intro c hc
  obtain ⟨c', hc', rfl⟩ := List.mem_map.1 hc
  exact isUpperAlnum_toUpper (hhex c' ((List.take_sublist 8 digest).subset hc'))

theorem map_field_eq {α β : Type} (f : α → α) (fld : α → β)
    (h : ∀ x, fld (f x) = fld x) (l : List α) :
    (l.map f).map fld = l.map fld := by
  rw [List.map_map]
  exact List.map_congr_left (fun x _ => h x)

/-- Either the dispatch makes no assignment and returns the row and pool
unchanged, or it picks a candidate and performs the assignment and the `busy`
update. -/
theorem auto_dispatch_cases (req : Request) (ambs : List Ambulance)
    (hp : req.status = ReqStatus.pending)
    (hna : req.assigned_ambulance_id = none) :
    auto_dispatch_ambulance req ambs = (req, ambs) ∨
      ∃ a ∈ ambs.filter isCandidate,
        auto_dispatch_ambulance req ambs =
          ({ req with
              assigned_ambulance_id := some a.id
              assigned_driver_id := a.driver_id
              status := ReqStatus.assigned }, markBusy ambs a.id) := by
  unfold auto_dispatch_ambulance
  rw [if_pos ⟨hp, hna⟩]
  cases hsel : selectNearest ambs req.location_lat req.location_lng with
  | none => exact Or.inl rfl
  | some a =>
      obtain ⟨hmem, _⟩ := selectNearest_spec ambs _ _ a hsel
      exact Or.inr ⟨a, hmem, rfl⟩

/-- The row inserted by the public form after the tracking-code trigger. -/
def triggeredRequest (rid : Nat) (phone etype : String) (lat lng : ℚ)
    (digest : List Char) : Request :=
  { insertedRequest rid phone etype lat lng with
      tracking_code := generate_tracking_code digest }

theorem dispatched_cases (s : DB) (rid : Nat) (phone etype : String)
    (lat lng : ℚ) (digest : List Char) :
    dispatched s rid phone etype lat lng digest =
        (triggeredRequest rid phone etype lat lng digest, s.ambulances) ∨
      ∃ a ∈ s.ambulances.filter isCandidate,
        dispatched s rid phone etype lat lng digest =
          ({ triggeredRequest rid phone etype lat lng digest with
              assigned_ambulance_id := some a.id
              assigned_driver_id := a.driver_id
              status := ReqStatus.assigned }, markBusy s.ambulances a.id) :=
  auto_dispatch_cases (triggeredRequest rid phone etype lat lng digest)
    s.ambulances rfl rfl

theorem Inv_create {s : DB} (inv : Inv s) (rid : Nat) (phone etype : String)
    (lat lng : ℚ) (digest : List Char) (hlen : digest.length = 32)
    (hhex : ∀ c ∈ digest, isHexLower c = true) :
    Inv (createRequest s rid phone etype lat lng digest) := by
  unfold createRequest
  by_cases hdup : ∃ r ∈ s.requests, r.id = rid ∨
      r.tracking_code = (dispatched s rid phone etype lat lng digest).1.tracking_code
  · rw [if_pos hdup]
    exact inv
  rw [if_neg hdup]
  push_neg at hdup
  have hvalid : validTrackingCode (generate_tracking_code digest) = true :=
    validTrackingCode_generate (by omega) hhex
  rcases dispatched_cases s rid phone etype lat lng digest with hcase |
    ⟨a, hafil, hcase⟩
  · -- no candidate: the request is inserted pending and unassigned
    have hq1 : (dispatched s rid phone etype lat lng digest).1 =
        triggeredRequest rid phone etype lat lng digest := by rw [hcase]
    have hq2 : (dispatched s rid phone etype lat lng digest).2 =
        s.ambulances := by rw [hcase]
    have hid_ne : ∀ r ∈ s.requests, r.id ≠ rid := fun r hr => (hdup r hr).1
    have hcode_ne : ∀ r ∈ s.requests,
        r.tracking_code ≠ generate_tracking_code digest := by
      intro r hr
      have h2 := (hdup r hr).2
      rw [hq1] at h2
      exact h2
    rw [hq1, hq2]
    refine ⟨inv.ambIds, ?_, inv.drvInj, ?_, ?_, ?_, ?_, ?_⟩
    · rw [List.map_append, List.nodup_append]
      refine ⟨inv.reqIds, by simp, ?_⟩
      intro x hx hx'
      obtain ⟨r, hr, hrx⟩ := List.mem_map.1 hx
      rw [List.map_singleton, List.mem_singleton] at hx'
      exact hid_ne r hr (hrx.trans (hx'.trans rfl))
    · intro r hr hact aid heq
      rcases List.mem_append.1 hr with hr | hr
      · exact inv.refOk r hr hact aid heq
      · rw [List.mem_singleton] at hr
        rw [hr] at heq
        cases heq
    · intro r hr r' hr' hact hact' aid heq heq'
      rcases List.mem_append.1 hr with hr | hr
      · rcases List.mem_append.1 hr' with hr' | hr'
        · exact inv.uniqRef r hr r' hr' hact hact' aid heq heq'
        · rw [List.mem_singleton] at hr'
          rw [hr'] at heq'
          cases heq'
      · rw [List.mem_singleton] at hr
        rw [hr] at heq
        cases heq
    · intro r hr
      rcases List.mem_append.1 hr with hr | hr
      · exact inv.pairNull r hr
      · rw [List.mem_singleton] at hr
        rw [hr]
        exact Iff.rfl
    · intro r hr
      rcases List.mem_append.1 hr with hr | hr
      · exact inv.codesValid r hr
      · rw [List.mem_singleton] at hr
        rw [hr]
        exact hvalid
    · rw [List.map_append, List.nodup_append]
      refine ⟨inv.codesNodup, by simp, ?_⟩
      intro x hx hx'
      obtain ⟨r, hr, hrx⟩ := List.mem_map.1 hx
      rw [List.map_singleton, List.mem_singleton] at hx'
      exact hcode_ne r hr (hrx.trans (hx'.trans rfl))
  · -- a candidate was claimed
    obtain ⟨hamem, havail, hadrv⟩ := mem_candidates hafil
    have hnoref := no_active_ref_of_available inv hamem havail
    have hq1 : (dispatched s rid phone etype lat lng digest).1 =
        { triggeredRequest rid phone etype lat lng digest with
            assigned_ambulance_id := some a.id
            assigned_driver_id := a.driver_id
            status := ReqStatus.assigned } := by rw [hcase]
    have hq2 : (dispatched s rid phone etype lat lng digest).2 =
        markBusy s.ambulances a.id := by rw [hcase]
    have hid_ne : ∀ r ∈ s.requests, r.id ≠ rid := fun r hr => (hdup r hr).1
    have hcode_ne : ∀ r ∈ s.requests,
        r.tracking_code ≠ generate_tracking_code digest := by
      intro r hr
      have h2 := (hdup r hr).2
      rw [hq1] at h2
      exact h2
    rw [hq1, hq2]
    refine ⟨?_, ?_, markBusy_drvInj inv a.id, ?_, ?_, ?_, ?_, ?_⟩
    · rw [markBusy_map_id]
      exact inv.ambIds
    · rw [List.map_append, List.nodup_append]
      refine ⟨inv.reqIds, by simp, ?_⟩
      intro x hx hx'
      obtain ⟨r, hr, hrx⟩ := List.mem_map.1 hx
      rw [List.map_singleton, List.mem_singleton] at hx'
      exact hid_ne r hr (hrx.trans (hx'.trans rfl))
    · intro r hr hact aid heq
      rcases List.mem_append.1 hr with hr | hr
      · obtain ⟨b, hb, hbid, hbdrv, hbs, hbst⟩ := inv.refOk r hr hact aid heq
        by_cases hba : b.id = a.id
        · exact absurd (by rw [heq, ← hbid, hba]) (hnoref r hr hact ∘ fun h => h)
        · refine ⟨b, ?_, hbid, hbdrv, hbs, hbst⟩
          have hmm : (if b.id = a.id then { b with status := AmbStatus.busy } else b) ∈
              markBusy s.ambulances a.id := List.mem_map_of_mem _ hb
          rw [if_neg hba] at hmm
          exact hmm
      · rw [List.mem_singleton] at hr
        rw [hr] at heq hact ⊢
        have haid : aid = a.id := by
          have : some a.id = some aid := heq
          injection this with e
          rw [e]
        refine ⟨{ a with status := AmbStatus.busy }, ?_, by rw [haid], rfl,
          hadrv, fun h => AmbStatus.noConfusion h⟩
        have hmm : (if a.id = a.id then { a with status := AmbStatus.busy } else a) ∈
            markBusy s.ambulances a.id := List.mem_map_of_mem _ hamem
        rw [if_pos rfl] at hmm
        exact hmm
    · intro r hr r' hr' hact hact' aid heq heq'
      rcases List.mem_append.1 hr with hr | hr
      · rcases List.mem_append.1 hr' with hr' | hr'
        · exact inv.uniqRef r hr r' hr' hact hact' aid heq heq'
        · rw [List.mem_singleton] at hr'
          rw [hr'] at heq'
          have : some a.id = some aid := heq'
          injection this with e
          exact absurd (by rw [heq, ← e]) (hnoref r hr hact)
      · rcases List.mem_append.1 hr' with hr' | hr'
        · rw [List.mem_singleton] at hr
          rw [hr] at heq
          have : some a.id = some aid := heq
          injection this with e
          exact absurd (by rw [heq', ← e]) (hnoref r' hr' hact')
        · rw [List.mem_singleton] at hr hr'
          rw [hr, hr']
    · intro r hr
      rcases List.mem_append.1 hr with hr | hr
      · exact inv.pairNull r hr
      · rw [List.mem_singleton] at hr
        rw [hr]
        constructor
        · intro h
          cases h
        · intro h
          exact absurd h (Option.ne_none_iff_isSome.2 hadrv)
    · intro r hr
      rcases List.mem_append.1 hr with hr | hr
      · exact inv.codesValid r hr
      · rw [List.mem_singleton] at hr
        rw [hr]
        exact hvalid
    · rw [List.map_append, List.nodup_append]
      refine ⟨inv.codesNodup, by simp, ?_⟩
      intro x hx hx'
      obtain ⟨r, hr, hrx⟩ := List.mem_map.1 hx
      rw [List.map_singleton, List.mem_singleton] at hx'
      exact hcode_ne r hr (hrx.trans (hx'.trans rfl))

theorem assignRequestRow_id (rid aid : Nat) (d : Option Nat) (x : Request) :
    (assignRequestRow rid aid d x).id = x.id := by
  unfold assignRequestRow
  by_cases h : x.id = rid <;> simp [h]

theorem assignRequestRow_code (rid aid : Nat) (d : Option Nat) (x : Request) :
    (assignRequestRow rid aid d x).tracking_code = x.tracking_code := by
  unfold assignRequestRow
  by_cases h : x.id = rid <;> simp [h]

theorem Inv_adminAssign {s : DB} (inv : Inv s) (rid aid : Nat) (r0 : Request)
    (a : Ambulance) (_hr0 : r0 ∈ s.requests) (_hr0id : r0.id = rid)
    (_hpend : r0.status = ReqStatus.pending) (ha : a ∈ s.ambulances)
    (haid : a.id = aid) (havail : a.status = AmbStatus.available) :
    Inv (assignAmbulance s rid aid) := by
  unfold assignAmbulance
  have hfind : s.ambulances.find? (fun x => x.id == aid) = some a := by
    apply find?_eq_some_of_unique ha (by simp [haid])
    intro x hx hpx
    exact List.inj_on_of_nodup_map inv.ambIds hx ha
      (by rw [haid]; simpa using hpx)
  rw [hfind]
  show Inv (if a.driver_id = none then s
    else
      { ambulances := markBusy s.ambulances aid
        requests := s.requests.map (assignRequestRow rid aid a.driver_id) })
  by_cases hd : a.driver_id = none
  · rw [if_pos hd]
    exact inv
  rw [if_neg hd]
  have hds : a.driver_id.isSome = true := Option.ne_none_iff_isSome.1 hd
  have hnoref := no_active_ref_of_available inv ha havail
  refine ⟨?_, ?_, markBusy_drvInj inv aid, ?_, ?_, ?_, ?_, ?_⟩
  · rw [markBusy_map_id]
    exact inv.ambIds
  · rw [map_field_eq _ _ (assignRequestRow_id rid aid a.driver_id)]
    exact inv.reqIds
  · intro y hy hact aid' heq
    obtain ⟨x, hx, hxy⟩ := List.mem_map.1 hy
    by_cases hxid : x.id = rid
    · have hyx : y = { x with
          assigned_ambulance_id := some aid
          assigned_driver_id := a.driver_id
          status := ReqStatus.assigned } := by
        rw [← hxy]
        unfold assignRequestRow
        rw [if_pos hxid]
      have haid' : aid' = aid := by
        rw [hyx] at heq
        have : some aid = some aid' := heq
        injection this with e
        rw [e]
      refine ⟨{ a with status := AmbStatus.busy }, ?_, by rw [haid', haid],
        by rw [hyx], hds, fun h => AmbStatus.noConfusion h⟩
      have hmm : (if a.id = aid then { a with status := AmbStatus.busy } else a) ∈
          markBusy s.ambulances aid := List.mem_map_of_mem _ ha
      rw [if_pos haid] at hmm
      exact hmm
    · have hyx : y = x := by
        rw [← hxy]
        unfold assignRequestRow
        rw [if_neg hxid]
      rw [hyx] at heq hact ⊢
      obtain ⟨b, hb, hbid, hbdrv, hbs, hbst⟩ := inv.refOk x hx hact aid' heq
      by_cases hba : b.id = aid
      · exfalso
        apply hnoref x hx hact
        rw [heq, ← hbid, hba, haid]
      · refine ⟨b, ?_, hbid, hbdrv, hbs, hbst⟩
        have hmm : (if b.id = aid then { b with status := AmbStatus.busy } else b) ∈
            markBusy s.ambulances aid := List.mem_map_of_mem _ hb
        rw [if_neg hba] at hmm
        exact hmm
  · intro y hy y' hy' hact hact' aid' heq heq'
    obtain ⟨x, hx, hxy⟩ := List.mem_map.1 hy
    obtain ⟨x', hx', hxy'⟩ := List.mem_map.1 hy'
    by_cases hxid : x.id = rid <;> by_cases hxid' : x'.id = rid
    · have : x = x' :=
        List.inj_on_of_nodup_map inv.reqIds hx hx' (by rw [hxid, hxid'])
      rw [← hxy, ← hxy', this]
    · exfalso
      have hyx : y = { x with
          assigned_ambulance_id := some aid
          assigned_driver_id := a.driver_id
          status := ReqStatus.assigned } := by
        rw [← hxy]; unfold assignRequestRow; rw [if_pos hxid]
      have hyx' : y' = x' := by
        rw [← hxy']; unfold assignRequestRow; rw [if_neg hxid']
      have haid' : aid' = aid := by
        rw [hyx] at heq
        have : some aid = some aid' := heq
        injection this with e
        rw [e]
      rw [hyx'] at heq' hact'
      apply hnoref x' hx' hact'
      rw [heq', haid', haid]
    · exfalso
      have hyx' : y' = { x' with
          assigned_ambulance_id := some aid
          assigned_driver_id := a.driver_id
          status := ReqStatus.assigned } := by
        rw [← hxy']; unfold assignRequestRow; rw [if_pos hxid']
      have hyx : y = x := by
        rw [← hxy]; unfold assignRequestRow; rw [if_neg hxid]
      have haid' : aid' = aid := by
        rw [hyx'] at heq'
        have : some aid = some aid' := heq'
        injection this with e
        rw [e]
      rw [hyx] at heq hact
      apply hnoref x hx hact
      rw [heq, haid', haid]
    · have hyx : y = x := by
        rw [← hxy]; unfold assignRequestRow; rw [if_neg hxid]
      have hyx' : y' = x' := by
        rw [← hxy']; unfold assignRequestRow; rw [if_neg hxid']
      rw [hyx] at heq hact
      rw [hyx'] at heq' hact'
      rw [hyx, hyx']
      exact inv.uniqRef x hx x' hx' hact hact' aid' heq heq'
  · intro y hy
    obtain ⟨x, hx, hxy⟩ := List.mem_map.1 hy
    by_cases hxid : x.id = rid
    · have hyx : y = { x with
          assigned_ambulance_id := some aid
          assigned_driver_id := a.driver_id
          status := ReqStatus.assigned } := by
        rw [← hxy]; unfold assignRequestRow; rw [if_pos hxid]
      rw [hyx]
      constructor
      · intro h
        cases h
      · intro h
        exact absurd h hd
    · have hyx : y = x := by
        rw [← hxy]; unfold assignRequestRow; rw [if_neg hxid]
      rw [hyx]
      exact inv.pairNull x hx
  · intro y hy
    obtain ⟨x, hx, hxy⟩ := List.mem_map.1 hy
    have : y.tracking_code = x.tracking_code := by
      rw [← hxy]
      exact assignRequestRow_code rid aid a.driver_id x
    rw [this]
    exact inv.codesValid x hx
  · rw [map_field_eq _ _ (assignRequestRow_code rid aid a.driver_id)]
    exact inv.codesNodup

theorem applyRequestUpdate_of_pos (uid rid : Nat) (st : ReqStatus) (now : Nat)
    {x : Request} (h1 : x.id = rid) (h2 : x.assigned_driver_id = some uid) :
    applyRequestUpdate uid rid st now x =
      { x with
          status := st
          completed_at :=
            if st = ReqStatus.completed then some now else none } := by
  unfold applyRequestUpdate
  rw [if_pos ⟨h1, h2⟩]

theorem applyRequestUpdate_of_neg (uid rid : Nat) (st : ReqStatus) (now : Nat)
    {x : Request} (h : ¬(x.id = rid ∧ x.assigned_driver_id = some uid)) :
    applyRequestUpdate uid rid st now x = x := by
  unfold applyRequestUpdate
  rw [if_neg h]

theorem applyRequestUpdate_id (uid rid : Nat) (st : ReqStatus) (now : Nat)
    (x : Request) : (applyRequestUpdate uid rid st now x).id = x.id := by
  unfold applyRequestUpdate
  split <;> rfl

theorem applyRequestUpdate_code (uid rid : Nat) (st : ReqStatus) (now : Nat)
    (x : Request) :
    (applyRequestUpdate uid rid st now x).tracking_code = x.tracking_code := by
  unfold applyRequestUpdate
  split <;> rfl

theorem applyRequestUpdate_amb (uid rid : Nat) (st : ReqStatus) (now : Nat)
    (x : Request) :
    (applyRequestUpdate uid rid st now x).assigned_ambulance_id =
      x.assigned_ambulance_id := by
  unfold applyRequestUpdate
  split <;> rfl

theorem applyRequestUpdate_drv (uid rid : Nat) (st : ReqStatus) (now : Nat)
    (x : Request) :
    (applyRequestUpdate uid rid st now x).assigned_driver_id =
      x.assigned_driver_id := by
  unfold applyRequestUpdate
  split <;> rfl

theorem applyAmbulanceUpdate_id (uid bid : Nat) (st : ReqStatus)
    (req? : Option Request) (y : Ambulance) :
    (applyAmbulanceUpdate uid bid st req? y).id = y.id := by
  unfold applyAmbulanceUpdate
  split
  · split
    · cases req? <;> rfl
    · rfl
  · rfl

theorem applyAmbulanceUpdate_drv (uid bid : Nat) (st : ReqStatus)
    (req? : Option Request) (y : Ambulance) :
    (applyAmbulanceUpdate uid bid st req? y).driver_id = y.driver_id := by
  unfold applyAmbulanceUpdate
  split
  · split
    · cases req? <;> rfl
    · rfl
  · rfl

theorem applyAmbulanceUpdate_status (uid bid : Nat) (st : ReqStatus)
    (req? : Option Request) {y : Ambulance}
    (h : y.id = bid ∧ y.driver_id = some uid) :
    (applyAmbulanceUpdate uid bid st req? y).status = ambStatusFor st := by
  unfold applyAmbulanceUpdate
  rw [if_pos h]
  split
  · cases req? <;> rfl
  · rfl

theorem applyAmbulanceUpdate_of_neg (uid bid : Nat) (st : ReqStatus)
    (req? : Option Request) {y : Ambulance}
    (h : ¬(y.id = bid ∧ y.driver_id = some uid)) :
    applyAmbulanceUpdate uid bid st req? y = y := by
  unfold applyAmbulanceUpdate
  rw [if_neg h]

theorem Inv_driverUpdate {s : DB} (inv : Inv s) (uid rid : Nat)
    (st : ReqStatus) (now : Nat) (r0 : Request) (hr0 : r0 ∈ s.requests)
    (hr0id : r0.id = rid) (hdrv : r0.assigned_driver_id = some uid)
    (hactive : r0.status = ReqStatus.assigned ∨ r0.status = ReqStatus.enRoute ∨
      r0.status = ReqStatus.arrived)
    (hst : st = ReqStatus.enRoute ∨ st = ReqStatus.arrived ∨
      st = ReqStatus.completed) :
    Inv (updateRequestStatus s uid rid st now).db := by
  have hr0active : activeReq r0 := by
    rcases hactive with h | h | h <;> simp [activeReq, h]
  have hcond_imp : ∀ x ∈ s.requests,
      x.id = rid ∧ x.assigned_driver_id = some uid → x = r0 := by
    rintro x hx ⟨h1, _⟩
    exact List.inj_on_of_nodup_map inv.reqIds hx hr0 (by rw [h1, hr0id])
  have hg : ∀ x ∈ s.requests, ∀ y, y = applyRequestUpdate uid rid st now x →
      (¬(x.id = rid ∧ x.assigned_driver_id = some uid) ∧ y = x) ∨
        (x = r0 ∧ y = { r0 with
          status := st
          completed_at :=
            if st = ReqStatus.completed then some now else none }) := by
    intro x hx y hy
    by_cases hc : x.id = rid ∧ x.assigned_driver_id = some uid
    · right
      have hxr0 := hcond_imp x hx hc
      subst hxr0
      rw [applyRequestUpdate_of_pos uid rid st now hc.1 hc.2] at hy
      exact ⟨rfl, hy⟩
    · left
      rw [applyRequestUpdate_of_neg uid rid st now hc] at hy
      exact ⟨hc, hy⟩
  have hreqs := updateRequestStatus_requests s uid rid st now
  -- request-side pieces of the invariant, independent of the ambulance branch
  have hreqIds2 :
      ((s.requests.map (applyRequestUpdate uid rid st now)).map Request.id).Nodup := by
    rw [map_field_eq _ _ (applyRequestUpdate_id uid rid st now)]
    exact inv.reqIds
  have hz : ∀ y ∈ s.requests.map (applyRequestUpdate uid rid st now),
      activeReq y → ∀ aid, y.assigned_ambulance_id = some aid →
      ∃ z ∈ s.requests, activeReq z ∧ z.assigned_ambulance_id = some aid ∧
        y = applyRequestUpdate uid rid st now z := by
    intro y hy hact aid heq
    obtain ⟨x, hx, hxy⟩ := List.mem_map.1 hy
    rcases hg x hx y hxy.symm with ⟨_, hyx⟩ | ⟨hxr0, hyr0⟩
    · exact ⟨x, hx, by rw [← hyx]; exact hact, by rw [← hyx]; exact heq,
        hxy.symm⟩
    · refine ⟨x, hx, by rw [hxr0]; exact hr0active, ?_, hxy.symm⟩
      have hyamb : y.assigned_ambulance_id = r0.assigned_ambulance_id := by
        rw [hyr0]
      rw [hxr0, ← hyamb]
      exact heq
  have huniq2 : ∀ y ∈ s.requests.map (applyRequestUpdate uid rid st now),
      ∀ y' ∈ s.requests.map (applyRequestUpdate uid rid st now),
      activeReq y → activeReq y' → ∀ aid,
      y.assigned_ambulance_id = some aid →
      y'.assigned_ambulance_id = some aid → y = y' := by
    intro y hy y' hy' hact hact' aid heq heq'
    obtain ⟨z, hzm, hza, hzr, hyz⟩ := hz y hy hact aid heq
    obtain ⟨z', hzm', hza', hzr', hyz'⟩ := hz y' hy' hact' aid heq'
    have : z = z' := inv.uniqRef z hzm z' hzm' hza hza' aid hzr hzr'
    rw [hyz, hyz', this]
  have hpair2 : ∀ y ∈ s.requests.map (applyRequestUpdate uid rid st now),
      (y.assigned_ambulance_id = none ↔ y.assigned_driver_id = none) := by
    intro y hy
    obtain ⟨x, hx, hxy⟩ := List.mem_map.1 hy
    have h1 : y.assigned_ambulance_id = x.assigned_ambulance_id := by
      rw [← hxy]; exact applyRequestUpdate_amb uid rid st now x
    have h2 : y.assigned_driver_id = x.assigned_driver_id := by
      rw [← hxy]; exact applyRequestUpdate_drv uid rid st now x
    rw [h1, h2]
    exact inv.pairNull x hx
  have hcodesV2 : ∀ y ∈ s.requests.map (applyRequestUpdate uid rid st now),
      validTrackingCode y.tracking_code = true := by
    intro y hy
    obtain ⟨x, hx, hxy⟩ := List.mem_map.1 hy
    have h1 : y.tracking_code = x.tracking_code := by
      rw [← hxy]; exact applyRequestUpdate_code uid rid st now x
    rw [h1]
    exact inv.codesValid x hx
  have hcodesN2 :
      ((s.requests.map (applyRequestUpdate uid rid st now)).map
        Request.tracking_code).Nodup := by
    rw [map_field_eq _ _ (applyRequestUpdate_code uid rid st now)]
    exact inv.codesNodup
  cases hda : driverAmbulance s.ambulances uid with
  | none =>
      have hambs : (updateRequestStatus s uid rid st now).db.ambulances =
          s.ambulances := by
        unfold updateRequestStatus
        rw [hda]
      refine ⟨?_, ?_, ?_, ?_, ?_, ?_, ?_, ?_⟩ <;> (try rw [hreqs]) <;>
        (try rw [hambs])
      · exact inv.ambIds
      · exact hreqIds2
      · exact inv.drvInj
      · intro y hy hact aid heq
        obtain ⟨z, hzm, hza, hzr, hyz⟩ := hz y hy hact aid heq
        obtain ⟨c, hc, hcid, hcdrv, hcs, hcst⟩ := inv.refOk z hzm hza aid hzr
        have hydrv : y.assigned_driver_id = z.assigned_driver_id := by
          rw [hyz]; exact applyRequestUpdate_drv uid rid st now z
        exact ⟨c, hc, hcid, by rw [hydrv]; exact hcdrv, hcs, hcst⟩
      · exact huniq2
      · exact hpair2
      · exact hcodesV2
      · exact hcodesN2
  | some b =>
      obtain ⟨hbmem, hbdrv⟩ := driverAmbulance_eq_some hda
      have hr0amb : r0.assigned_ambulance_id = some b.id := by
        have hne : r0.assigned_ambulance_id ≠ none := by
          intro hnone
          have hnd := (inv.pairNull r0 hr0).1 hnone
          rw [hdrv] at hnd
          cases hnd
        obtain ⟨aid0, haid0⟩ := Option.ne_none_iff_exists'.1 hne
        obtain ⟨a0, ha0, ha0id, ha0drv, ha0some, _⟩ :=
          inv.refOk r0 hr0 hr0active aid0 haid0
        have ha0b : a0 = b := by
          apply inv.drvInj a0 ha0 b hbmem ha0some
          rw [ha0drv, hdrv, hbdrv]
        rw [haid0, ← ha0id, ha0b]
      have hambs : (updateRequestStatus s uid rid st now).db.ambulances =
          s.ambulances.map (applyAmbulanceUpdate uid b.id st
            ((driverRequests s.requests uid).find? (fun x => x.id == rid))) := by
        unfold updateRequestStatus
        rw [hda]
      refine ⟨?_, ?_, ?_, ?_, ?_, ?_, ?_, ?_⟩ <;> (try rw [hreqs]) <;>
        (try rw [hambs])
      · rw [map_field_eq _ _ (applyAmbulanceUpdate_id uid b.id st _)]
        exact inv.ambIds
      · exact hreqIds2
      · intro x hx y hy hxs hxy
        obtain ⟨c, hc, hcx⟩ := List.mem_map.1 hx
        obtain ⟨c', hc', hcy⟩ := List.mem_map.1 hy
        have h1 : x.driver_id = c.driver_id := by
          rw [← hcx]; exact applyAmbulanceUpdate_drv uid b.id st _ c
        have h2 : y.driver_id = c'.driver_id := by
          rw [← hcy]; exact applyAmbulanceUpdate_drv uid b.id st _ c'
        have hcc : c = c' := by
          apply inv.drvInj c hc c' hc'
          · rw [← h1]; exact hxs
          · rw [← h1, ← h2]; exact hxy
        rw [← hcx, ← hcy, hcc]
      · intro y hy hact aid heq
        obtain ⟨z, hzm, hza, hzr, hyz⟩ := hz y hy hact aid heq
        obtain ⟨c, hc, hcid, hcdrv, hcs, hcst⟩ := inv.refOk z hzm hza aid hzr
        have hydrv : y.assigned_driver_id = z.assigned_driver_id := by
          rw [hyz]; exact applyRequestUpdate_drv uid rid st now z
        by_cases hcb : c.id = b.id ∧ c.driver_id = some uid
        · -- the referenced ambulance is the driver's own: z must be r0 and the
          -- transition is not a completion (y is still active)
          have hcbeq : c = b :=
            List.inj_on_of_nodup_map inv.ambIds hc hbmem hcb.1
          have hzr0 : z = r0 := by
            apply inv.uniqRef z hzm r0 hr0 hza hr0active aid hzr
            rw [hr0amb, ← hcid, hcbeq]
          have hstne : st ≠ ReqStatus.completed := by
            intro hcomp
            have hyval : y = { r0 with
                status := st
                completed_at :=
                  if st = ReqStatus.completed then some now else none } := by
              rw [hyz, hzr0]
              exact applyRequestUpdate_of_pos uid rid st now hr0id hdrv
            rw [hyval, hcomp] at hact
            exact hact.1 rfl
          refine ⟨applyAmbulanceUpdate uid b.id st
            ((driverRequests s.requests uid).find? (fun w => w.id == rid)) c,
            List.mem_map_of_mem _ hc, ?_, ?_, ?_, ?_⟩
          · rw [applyAmbulanceUpdate_id]
            exact hcid
          · rw [applyAmbulanceUpdate_drv, hydrv]
            exact hcdrv
          · rw [applyAmbulanceUpdate_drv]
            exact hcs
          · rw [applyAmbulanceUpdate_status uid b.id st _ hcb]
            rcases hst with h | h | h
            · rw [h]
              exact fun hh => AmbStatus.noConfusion hh
            · rw [h]
              exact fun hh => AmbStatus.noConfusion hh
            · exact absurd h hstne
        · refine ⟨applyAmbulanceUpdate uid b.id st
            ((driverRequests s.requests uid).find? (fun w => w.id == rid)) c,
            List.mem_map_of_mem _ hc, ?_, ?_, ?_, ?_⟩ <;>
            rw [applyAmbulanceUpdate_of_neg uid b.id st _ hcb]
          · exact hcid
          · rw [hydrv]
            exact hcdrv
          · exact hcs
          · exact hcst
      · exact huniq2
      · exact hpair2
      · exact hcodesV2
      · exact hcodesN2

theorem Inv_step {s t : DB} (inv : Inv s) (h : Step s t) : Inv t := by
  cases h with
  | create rid phone etype lat lng digest hlen hhex =>
      exact Inv_create inv rid phone etype lat lng digest hlen hhex
  | adminAssign rid aid r a hr hrid hpend ha haid havail =>
      exact Inv_adminAssign inv rid aid r a hr hrid hpend ha haid havail
  | driverUpdate uid rid st now r hr hrid hdrv hactive hst =>
      exact Inv_driverUpdate inv uid rid st now r hr hrid hdrv hactive hst

theorem Inv_reachable {s0 s : DB} (h0 : InitOk s0) (h : Reachable s0 s) :
    Inv s := by
  induction h with
  | refl => exact Inv_of_init h0
  | tail _ hstep ih => exact Inv_step ih hstep

theorem dispatched_id (s : DB) (rid : Nat) (phone etype : String)
    (lat lng : ℚ) (digest : List Char) :
    (dispatched s rid phone etype lat lng digest).1.id = rid := by
  rcases dispatched_cases s rid phone etype lat lng digest with h | ⟨a, _, h⟩ <;>
    rw [h] <;> rfl

/-- Every operation leaves every pre-existing request's tracking code intact,
and leaves a completed or cancelled request entirely unchanged. -/
theorem step_preserves_request {s t : DB} (inv : Inv s) (h : Step s t) :
    ∀ r ∈ s.requests, ∀ r' ∈ t.requests, r'.id = r.id →
      r'.tracking_code = r.tracking_code ∧
        ((r.status = ReqStatus.completed ∨ r.status = ReqStatus.cancelled) →
          r' = r) := by
  cases h with
  | create rid phone etype lat lng digest hlen hhex =>
      intro r hr r' hr' hid
      unfold createRequest at hr'
      by_cases hdup : ∃ x ∈ s.requests, x.id = rid ∨
          x.tracking_code = (dispatched s rid phone etype lat lng digest).1.tracking_code
      · rw [if_pos hdup] at hr'
        have : r' = r := List.inj_on_of_nodup_map inv.reqIds hr' hr hid
        rw [this]
        exact ⟨rfl, fun _ => rfl⟩
      · rw [if_neg hdup] at hr'
        push_neg at hdup
        rcases List.mem_append.1 hr' with hr' | hr'
        · have : r' = r := List.inj_on_of_nodup_map inv.reqIds hr' hr hid
          rw [this]
          exact ⟨rfl, fun _ => rfl⟩
        · rw [List.mem_singleton] at hr'
          exfalso
          apply (hdup r hr).1
          rw [← hid, hr']
          exact dispatched_id s rid phone etype lat lng digest
  | adminAssign rid aid r0 a hr0 hr0id hpend ha haid havail =>
      intro r hr r' hr' hid
      unfold assignAmbulance at hr'
      cases hfind : s.ambulances.find? (fun x => x.id == aid) with
      | none =>
          rw [hfind] at hr'
          have : r' = r := List.inj_on_of_nodup_map inv.reqIds hr' hr hid
          rw [this]
          exact ⟨rfl, fun _ => rfl⟩
      | some amb =>
          rw [hfind] at hr'
          have hr2 : r' ∈ (if amb.driver_id = none then s
              else
                { ambulances := markBusy s.ambulances aid
                  requests :=
                    s.requests.map (assignRequestRow rid aid amb.driver_id) } :
              DB).requests := hr'
          by_cases hd : amb.driver_id = none
          · rw [if_pos hd] at hr2
            have : r' = r := List.inj_on_of_nodup_map inv.reqIds hr2 hr hid
            rw [this]
            exact ⟨rfl, fun _ => rfl⟩
          · rw [if_neg hd] at hr2
            obtain ⟨x, hx, hxy⟩ := List.mem_map.1 hr2
            have hxr : x = r := by
              apply List.inj_on_of_nodup_map inv.reqIds hx hr
              rw [← hid, ← hxy]
              exact (assignRequestRow_id rid aid amb.driver_id x).symm
            rw [hxr] at hxy
            constructor
            · rw [← hxy]
              exact assignRequestRow_code rid aid amb.driver_id r
            · intro hterm
              have hne : r.id ≠ rid := by
                intro hrrid
                have : r = r0 := List.inj_on_of_nodup_map inv.reqIds hr hr0
                  (by rw [hrrid, hr0id])
                rcases hterm with ht | ht <;>
                  { rw [this, hpend] at ht; cases ht }
              rw [← hxy]
              unfold assignRequestRow
              rw [if_neg hne]
  | driverUpdate uid rid st now r0 hr0 hr0id hdrv hactive hst =>
      intro r hr r' hr' hid
      rw [updateRequestStatus_requests] at hr'
      obtain ⟨x, hx, hxy⟩ := List.mem_map.1 hr'
      have hxr : x = r := by
        apply List.inj_on_of_nodup_map inv.reqIds hx hr
        rw [← hid, ← hxy]
        exact (applyRequestUpdate_id uid rid st now x).symm
      rw [hxr] at hxy
      constructor
      · rw [← hxy]
        exact applyRequestUpdate_code uid rid st now r
      · intro hterm
        have hnc : ¬(r.id = rid ∧ r.assigned_driver_id = some uid) := by
          rintro ⟨h1, _⟩
          have : r = r0 := List.inj_on_of_nodup_map inv.reqIds hr hr0
            (by rw [h1, hr0id])
          rcases hactive with ha | ha | ha <;> rcases hterm with ht | ht <;>
            { rw [this, ha] at ht; cases ht }
        rw [← hxy]
        exact applyRequestUpdate_of_neg uid rid st now hnc

/-- C2: in every state reachable (from a provisioned fleet with no requests)
by any sequence of the three operations — request creation with
auto-dispatch, admin manual assignment, driver status transitions — at most
one active (non-completed, non-cancelled) request references a given
ambulance as its assigned ambulance: two such references are the same
request row. -/
theorem C2_at_most_one_active_assignment (s0 s : DB) (h0 : InitOk s0)
    (hre : Reachable s0 s) :
    ∀ a ∈ s.ambulances, ∀ r ∈ s.requests, ∀ r' ∈ s.requests,
      activeReq r → activeReq r' →
      r.assigned_ambulance_id = some a.id →
      r'.assigned_ambulance_id = some a.id → r = r' := by
  have inv := Inv_reachable h0 hre
  intro a _ r hrm r' hrm' hact hact' heq heq'
  exact inv.uniqRef r hrm r' hrm' hact hact' a.id heq heq'

/-- C4: once a request's status is completed or cancelled, no subsequent
operation ever changes that request's status (the row is left entirely
unchanged). -/
theorem C4_terminal_status_frozen (s0 s s' : DB) (h0 : InitOk s0)
    (hre : Reachable s0 s) (hstep : Step s s') :
    ∀ r ∈ s.requests,
      (r.status = ReqStatus.completed ∨ r.status = ReqStatus.cancelled) →
      ∀ r' ∈ s'.requests, r'.id = r.id → r'.status = r.status := by
  intro r hrm hterm r' hrm' hid
  have h := (step_preserves_request (Inv_reachable h0 hre) hstep
    r hrm r' hrm' hid).2 hterm
  rw [h]

/-- C8: in every reachable state, each request's `assigned_ambulance_id` and
`assigned_driver_id` are both null or both non-null (every operation that
sets one sets the other). -/
theorem C8_assignment_fields_paired (s0 s : DB) (h0 : InitOk s0)
    (hre : Reachable s0 s) :
    ∀ r ∈ s.requests,
      (r.assigned_ambulance_id = none ↔ r.assigned_driver_id = none) :=
  fun r hr => (Inv_reachable h0 hre).pairNull r hr

/-- C9: in every reachable state every stored tracking code matches
`SC-[A-Z0-9]{8}` (the generator runs on every insert), the stored codes are
pairwise distinct (the UNIQUE constraint rejects a colliding insert), and no
operation ever changes an existing request's tracking code. -/
theorem C9_tracking_code (s0 s : DB) (h0 : InitOk s0) (hre : Reachable s0 s) :
    (∀ r ∈ s.requests, validTrackingCode r.tracking_code = true) ∧
      (s.requests.map Request.tracking_code).Nodup ∧
      ∀ s', Step s s' → ∀ r ∈ s.requests, ∀ r' ∈ s'.requests,
        r'.id = r.id → r'.tracking_code = r.tracking_code := by
  have inv := Inv_reachable h0 hre
  exact ⟨inv.codesValid, inv.codesNodup,
    fun s' hstep r hr r' hr' hid =>
      (step_preserves_request inv hstep r hr r' hr' hid).1⟩

/-- Replace null coordinates by the `COALESCE` fallback point, as the
dispatch query effectively does. -/
def coalesceCoords (a : Ambulance) : Ambulance :=
  { a with current_lat := some (effLat a), current_lng := some (effLng a) }

theorem dist2_coalesce (a : Ambulance) (lat lng : ℚ) :
    dist2 (coalesceCoords a) lat lng = dist2 a lat lng := rfl

theorem closer_coalesce (lat lng : ℚ) (acc : Option Ambulance) (a : Ambulance) :
    closer lat lng (acc.map coalesceCoords) (coalesceCoords a) =
      (closer lat lng acc a).map coalesceCoords := by
  cases acc with
  | none => rfl
  | some b =>
      show (if dist2 (coalesceCoords a) lat lng <
          dist2 (coalesceCoords b) lat lng
        then some (coalesceCoords a) else some (coalesceCoords b)) =
        Option.map coalesceCoords
          (if dist2 a lat lng < dist2 b lat lng then some a else some b)
      rw [dist2_coalesce, dist2_coalesce]
      by_cases h : dist2 a lat lng < dist2 b lat lng
      · rw [if_pos h, if_pos h]
        rfl
      · rw [if_neg h, if_neg h]
        rfl

theorem foldl_closer_coalesce (lat lng : ℚ) (l : List Ambulance) :
    ∀ acc : Option Ambulance,
      (l.map coalesceCoords).foldl (closer lat lng) (acc.map coalesceCoords) =
        (l.foldl (closer lat lng) acc).map coalesceCoords := by
  induction l with
  | nil => intro acc; rfl
  | cons x t ih =>
      intro acc
      simp only [List.map_cons, List.foldl_cons]
      rw [closer_coalesce]
      exact ih (closer lat lng acc x)

theorem filter_coalesce (l : List Ambulance) :
    (l.map coalesceCoords).filter isCandidate =
      (l.filter isCandidate).map coalesceCoords := by
  induction l with
  | nil => rfl
  | cons x t ih =>
      simp only [List.map_cons, List.filter_cons]
      have hc : isCandidate (coalesceCoords x) = isCandidate x := rfl
      rw [hc]
      by_cases h : isCandidate x = true
      · rw [if_pos h, if_pos h, List.map_cons, ih]
      · rw [if_neg h, if_neg h, ih]

theorem selectNearest_coalesce (ambs : List Ambulance) (lat lng : ℚ) :
    selectNearest (ambs.map coalesceCoords) lat lng =
      (selectNearest ambs lat lng).map coalesceCoords := by
  unfold selectNearest
  rw [filter_coalesce]
  exact foldl_closer_coalesce lat lng (ambs.filter isCandidate) none

/-- C10: an ambulance with null current coordinates is treated by the
dispatch engine's distance comparison as located at the fixed fallback point
(9.0579, 7.4951), and its candidacy is not affected by the null coordinates:
its distance column equals the planar distance measured from the fallback
point, the candidate filter ignores the coordinate fields, and replacing
every null coordinate in the pool by the fallback point (`coalesceCoords`)
leaves the dispatch result (the returned request row) unchanged. -/
theorem C10_null_coords_fallback (a : Ambulance) (req : Request)
    (ambs : List Ambulance)
    (hlat : a.current_lat = none) (hlng : a.current_lng = none) :
    (∀ lat lng, dist2 a lat lng =
        (fallback_lat - lat) ^ 2 + (fallback_lng - lng) ^ 2) ∧
      (∀ x y, isCandidate { a with current_lat := x, current_lng := y } =
        isCandidate a) ∧
      (auto_dispatch_ambulance req (ambs.map coalesceCoords)).1 =
        (auto_dispatch_ambulance req ambs).1 := by
  refine ⟨?_, fun x y => rfl, ?_⟩
  · intro lat lng
    unfold dist2 effLat effLng
    rw [hlat, hlng]
    rfl
  · unfold auto_dispatch_ambulance
    by_cases hg : req.status = ReqStatus.pending ∧
        req.assigned_ambulance_id = none
    · rw [if_pos hg, if_pos hg, selectNearest_coalesce]
      cases hsel : selectNearest ambs req.location_lat req.location_lng with
      | none => rfl
      | some b => rfl
    · rw [if_neg hg, if_neg hg]

/-- Driverless ambulance with null coordinates for the C10 witness. -/
def ambC10 : Ambulance :=
  { id := 3, driver_id := none, plate_number := "N0",
    status := AmbStatus.offline, current_lat := none, current_lng := none,
    base_lat := none, base_lng := none }

/-- Pending request for the C10 witness. -/
def reqC10 : Request :=
  { id := 9, tracking_code := [], requester_phone := "p",
    emergency_type := "fire", location_lat := 1, location_lng := 2,
    status := ReqStatus.pending, assigned_ambulance_id := none,
    assigned_driver_id := none, completed_at := none }

/-- Witness for `C10_null_coords_fallback` at a concrete null-coordinate
ambulance. -/
theorem C10_null_coords_fallback_witness :
    (∀ lat lng, dist2 ambC10 lat lng =
        (fallback_lat - lat) ^ 2 + (fallback_lng - lng) ^ 2) ∧
      (∀ x y, isCandidate { ambC10 with current_lat := x, current_lng := y } =
        isCandidate ambC10) ∧
      (auto_dispatch_ambulance reqC10 ([ambC10].map coalesceCoords)).1 =
        (auto_dispatch_ambulance reqC10 [ambC10]).1 :=
  C10_null_coords_fallback ambC10 reqC10 [ambC10] rfl rfl

/-- Request already assigned, for the C3 witness. -/
def reqC3 : Request :=
  { id := 4, tracking_code := [], requester_phone := "p",
    emergency_type := "fire", location_lat := 1, location_lng := 2,
    status := ReqStatus.assigned, assigned_ambulance_id := some 1,
    assigned_driver_id := some 2, completed_at := none }

/-- Witness for `C3_dispatch_noop` at a concrete assigned request. -/
theorem C3_dispatch_noop_witness :
    auto_dispatch_ambulance reqC3 [] = (reqC3, []) :=
  C3_dispatch_noop reqC3 [] (Or.inl (by decide))

/-- Provisioned ambulance for the reachability witnesses. -/
def ambW : Ambulance :=
  { id := 1, driver_id := some 5, plate_number := "W1",
    status := AmbStatus.available, current_lat := some 9,
    current_lng := some 7, base_lat := none, base_lng := none }

/-- Initial state: one available ambulance with a driver, no requests. -/
def s0W : DB := { ambulances := [ambW], requests := [] }

/-- A 32-character lower-case hex digest, as `md5` produces. -/
def hexW : List Char :=
  ['a', '0', 'c', '2', 'e', '4', 'b', '6', 'f', '8', '1', 'd', '3', '9',
    '5', '7', 'a', '0', 'c', '2', 'e', '4', 'b', '6', 'f', '8', '1', 'd',
    '3', '9', '5', '7']

theorem initW : InitOk s0W := by
  refine ⟨rfl, by decide, ?_⟩
  intro a ha b hb _ _
  have h1 : a = ambW := by simpa [s0W] using ha
  have h2 : b = ambW := by simpa [s0W] using hb
  rw [h1, h2]

def s1W : DB := createRequest s0W 1 "p" "t" 9 7 hexW

theorem step1W : Step s0W s1W :=
  Step.create s0W 1 "p" "t" 9 7 hexW (by decide) (by decide)

theorem reach1W : Reachable s0W s1W :=
  Reachable.tail (Reachable.refl s0W) step1W

/-- The ambulance row after the dispatch marked it busy. -/
def ambW1 : Ambulance := { ambW with status := AmbStatus.busy }

/-- The dispatched request row of the first creation. -/
def q1W : Request := (dispatched s0W 1 "p" "t" 9 7 hexW).1

theorem ambW1_mem : ambW1 ∈ s1W.ambulances :=
  List.mem_cons_self ambW1 []

theorem q1W_mem : q1W ∈ s1W.requests :=
  List.mem_append_right [] (List.mem_cons_self q1W [])

theorem q1W_active : activeReq q1W :=
  ⟨fun h => ReqStatus.noConfusion h, fun h => ReqStatus.noConfusion h⟩

/-- Witness for `C2_at_most_one_active_assignment` after one dispatched
creation from the concrete initial state: the dispatched request is the one
active request referencing the claimed ambulance. -/
theorem C2_at_most_one_active_assignment_witness :
    ambW1 ∈ s1W.ambulances ∧ q1W ∈ s1W.requests ∧ activeReq q1W ∧
      q1W.assigned_ambulance_id = some ambW1.id ∧ q1W = q1W :=
  ⟨ambW1_mem, q1W_mem, q1W_active, rfl,
    C2_at_most_one_active_assignment s0W s1W initW reach1W ambW1 ambW1_mem
      q1W q1W_mem q1W q1W_mem q1W_active q1W_active rfl rfl⟩

/-- Witness for `C8_assignment_fields_paired` in the same reachable state. -/
theorem C8_assignment_fields_paired_witness :
    q1W ∈ s1W.requests ∧
      (q1W.assigned_ambulance_id = none ↔ q1W.assigned_driver_id = none) :=
  ⟨q1W_mem, C8_assignment_fields_paired s0W s1W initW reach1W q1W q1W_mem⟩

/-- Witness for `C9_tracking_code` in the same reachable state. -/
theorem C9_tracking_code_witness :
    (∀ r ∈ s1W.requests, validTrackingCode r.tracking_code = true) ∧
      (s1W.requests.map Request.tracking_code).Nodup ∧
      ∀ s', Step s1W s' → ∀ r ∈ s1W.requests, ∀ r' ∈ s'.requests,
        r'.id = r.id → r'.tracking_code = r.tracking_code :=
  C9_tracking_code s0W s1W initW reach1W

def s2W : DB := (updateRequestStatus s1W 5 1 ReqStatus.completed 42).db

theorem step2W : Step s1W s2W :=
  Step.driverUpdate s1W 5 1 ReqStatus.completed 42 q1W q1W_mem
    rfl rfl (Or.inl rfl) (Or.inr (Or.inr rfl))

theorem reach2W : Reachable s0W s2W := Reachable.tail reach1W step2W

/-- The completed request row. -/
def q2W : Request := applyRequestUpdate 5 1 ReqStatus.completed 42 q1W

/-- A second digest with a different 8-character prefix, so the second
creation's tracking code is fresh. -/
def hexW2 : List Char :=
  ['7', '5', '9', '3', 'd', '1', '8', 'f', '6', 'b', '4', 'e', '2', 'c',
    '0', 'a', '7', '5', '9', '3', 'd', '1', '8', 'f', '6', 'b', '4', 'e',
    '2', 'c', '0', 'a']

theorem step3W : Step s2W (createRequest s2W 2 "p" "t" 9 7 hexW2) :=
  Step.create s2W 2 "p" "t" 9 7 hexW2 (by decide) (by decide)

theorem q2W_mem : q2W ∈ s2W.requests := List.mem_cons_self q2W []

theorem q2W_mem' : q2W ∈ (createRequest s2W 2 "p" "t" 9 7 hexW2).requests :=
  List.mem_append_left _ (List.mem_cons_self q2W [])

/-- Witness for `C4_terminal_status_frozen`: a request completed by its
driver keeps its status across a further creation step. -/
theorem C4_terminal_status_frozen_witness :
    q2W ∈ s2W.requests ∧
      (q2W.status = ReqStatus.completed ∨ q2W.status = ReqStatus.cancelled) ∧
      q2W.status = q2W.status :=
  ⟨q2W_mem, Or.inl rfl,
    C4_terminal_status_frozen s0W s2W (createRequest s2W 2 "p" "t" 9 7 hexW2)
      initW reach2W step3W q2W q2W_mem (Or.inl rfl) q2W q2W_mem' rfl⟩

end SwiftCare

